import Mathlib

/-! Sudoku generator and validator (`static/js/sudoku.js`).

A shallow embedding of the Sudoku core: the constraint checker (`isRowSafe`,
`isColSafe`, `isBoxSafe`, `isSafe`), the randomized backtracking generator
(`findUnassignedPos`, `shuffleArray`, `sudokuCreate`), the validator
(`sudokuCheck`) and puzzle carving (`removeCells`, `sudokuGen`).

Modelling conventions.

* A grid is a JavaScript array of arrays of numbers: `List (List Nat)`.  The
  source only ever builds and receives 9x9 grids (`newGrid GRID_SIZE`, the
  player's copy of `question`); the predicate `Is9x9` records that shape and
  the theorems assume it.  On such a grid every index the code uses is in
  range, so the default value of the accessor `cellAt` is never observed.
* In-place mutation is explicit state passing: a function that writes to its
  argument returns the grid as it is left when the call ends.
* `Math.random` is an oracle `Nat → Nat` read at a running position; the draw
  `Math.floor(Math.random() * k)` is the oracle entry reduced modulo `k`, an
  arbitrary integer of `0 .. k-1`.  Each function returns the position it
  reached.
* The recursion of `sudokuCreate` and the `while` loop of `removeCells` carry
  a fuel argument; the result `none` means the fuel ran out.
-/

namespace Sudoku

/-! ## Constants (`constant.js`) -/

/-- Modelled from the spec: `constant.js` is not among the sources; the grid
is 9x9. -/
def GRID_SIZE : Nat := 9

/-- Modelled from the spec: `constant.js` is not among the sources; boxes are
3x3. -/
def BOX_SIZE : Nat := 3

/-- Modelled from the spec: `constant.js` is not among the sources; the value
0 denotes an unassigned cell. -/
def UNASSIGNED : Nat := 0

/-- Modelled from the spec: `constant.js` is not among the sources; the
candidate digits are 1 to 9. -/
def NUMBERS : List Nat := [1, 2, 3, 4, 5, 6, 7, 8, 9]

/-! ## Grids -/

/-- A grid: an array of rows, each an array of numbers. -/
abbrev Grid := List (List Nat)

/-- The source of random draws. -/
abbrev Oracle := Nat → Nat

/-- The read `grid[r][c]`. -/
def cellAt (grid : Grid) (r c : Nat) : Nat := (grid.getD r []).getD c 0

/-- The write `grid[r][c] = v`, giving the grid after the assignment. -/
def setCell (grid : Grid) (r c v : Nat) : Grid :=
  grid.set r ((grid.getD r []).set c v)

/-- The shape of a grid: nine rows of nine cells. -/
def Is9x9 (grid : Grid) : Prop :=
  grid.length = 9 ∧ ∀ row ∈ grid, row.length = 9

instance (grid : Grid) : Decidable (Is9x9 grid) := by
  unfold Is9x9; infer_instance

/-- The function `newGrid`: a `size` x `size` grid filled with `UNASSIGNED`. -/
def newGrid (size : Nat) : Grid :=
  List.replicate size (List.replicate size UNASSIGNED)

/-! ## Constraint checker -/

/-- The function `isColSafe`: no row holds `value` at index `col`. -/
def isColSafe (grid : Grid) (col value : Nat) : Bool :=
  !grid.any (fun row => row.getD col 0 == value)

/-- The function `isRowSafe`: no cell of `grid[row]` equals `value`. -/
def isRowSafe (grid : Grid) (row value : Nat) : Bool :=
  !(grid.getD row []).any (fun cell => cell == value)

/-- The function `isBoxSafe`: the two nested loops over the box whose top-left corner is
`(boxRow, boxCol)`, returning `false` at the first cell equal to `value`. -/
def isBoxSafe (grid : Grid) (boxRow boxCol value : Nat) : Bool :=
  !(List.range BOX_SIZE).any (fun r =>
    (List.range BOX_SIZE).any (fun c => cellAt grid (boxRow + r) (boxCol + c) == value))

/-- The function `isSafe`: the combined placement test. -/
def isSafe (grid : Grid) (row col value : Nat) : Bool :=
  value != UNASSIGNED &&
  isRowSafe grid row value &&
  isColSafe grid col value &&
  isBoxSafe grid (row - row % 3) (col - col % 3) value

/-! ## Generator -/

/-- The function `findUnassignedPos`: the first cell in row-major order that equals
`UNASSIGNED`, or `none` (the source's `null`). -/
def findUnassignedPos (grid : Grid) : Option (Nat × Nat) :=
  (List.range GRID_SIZE).findSome? (fun r =>
    (List.range GRID_SIZE).findSome? (fun c =>
      if cellAt grid r c == UNASSIGNED then some (r, c) else none))

/-- The destructuring swap `[a[i], a[j]] = [a[j], a[i]]`. -/
def swapAt (a : List Nat) (i j : Nat) : List Nat :=
  (a.set i (a.getD j 0)).set j (a.getD i 0)

/-- The loop of `shuffleArray` from index `i` down to 1: one draw of
`0 .. i` per step. -/
def shuffleLoop (o : Oracle) : Nat → Nat → List Nat → List Nat × Nat
  | 0, pos, a => (a, pos)
  | i + 1, pos, a => shuffleLoop o i (pos + 1) (swapAt a (i + 1) (o pos % (i + 2)))

/-- The function `shuffleArray`: Fisher-Yates on a copy of `arr`. -/
def shuffleArray (o : Oracle) (pos : Nat) (arr : List Nat) : List Nat × Nat :=
  shuffleLoop o (arr.length - 1) pos arr

/-- The `for (const num of numbers)` loop of `sudokuCreate` at the position
`(row, col)`, with `call` standing for the recursive call. -/
def tryNumbers (call : Nat → Grid → Option (Bool × Grid × Nat)) (row col : Nat) :
    List Nat → Nat → Grid → Option (Bool × Grid × Nat)
  | [], pos, grid => some (false, grid, pos)
  | num :: rest, pos, grid =>
    if isSafe grid row col num then
      match call pos (setCell grid row col num) with
      | none => none
      | some (true, g, p) => some (true, g, p)
      | some (false, g, p) => tryNumbers call row col rest p (setCell g row col UNASSIGNED)
    else tryNumbers call row col rest pos grid

/-- The function `sudokuCreate`: recursive backtracking.  The result is the returned
boolean, the grid as left in place and the oracle position reached. -/
def sudokuCreate (o : Oracle) : Nat → Nat → Grid → Option (Bool × Grid × Nat)
  | 0, _, _ => none
  | fuel + 1, pos, grid =>
    match findUnassignedPos grid with
    | none => some (true, grid, pos)
    | some (row, col) =>
      tryNumbers (sudokuCreate o fuel) row col
        (shuffleArray o pos NUMBERS).1 (shuffleArray o pos NUMBERS).2 grid

/-! ## Validator -/

/-- The cells in the order the two nested loops of `sudokuCheck` visit
them. -/
def scanOrder : List (Nat × Nat) :=
  (List.range GRID_SIZE).flatMap (fun r => (List.range GRID_SIZE).map (fun c => (r, c)))

/-- The loops of `sudokuCheck` over the cells still to visit. -/
def checkCells : List (Nat × Nat) → Grid → Bool × Grid
  | [], grid => (true, grid)
  | (r, c) :: rest, grid =>
    if cellAt grid r c != UNASSIGNED then
      if !isSafe (setCell grid r c UNASSIGNED) r c (cellAt grid r c) then
        (false, setCell grid r c UNASSIGNED)
      else checkCells rest (setCell (setCell grid r c UNASSIGNED) r c (cellAt grid r c))
    else checkCells rest grid

/-- The function `sudokuCheck`: the returned boolean and the grid as left in place. -/
def sudokuCheck (grid : Grid) : Bool × Grid := checkCells scanOrder grid

/-! ## Puzzle carving -/

/-- The function `deepCopy`: a fresh array of fresh copies of the rows. -/
def deepCopy (grid : Grid) : Grid := grid.map (fun row => row.map id)

/-- The `while (attempts > 0)` loop of `removeCells`: two draws per
iteration. -/
def removeLoop (o : Oracle) : Nat → Nat → Grid → Int → Option (Grid × Nat)
  | 0, _, _, _ => none
  | fuel + 1, pos, res, attempts =>
    if attempts > 0 then
      if cellAt res (o pos % GRID_SIZE) (o (pos + 1) % GRID_SIZE) != UNASSIGNED then
        removeLoop o fuel (pos + 2)
          (setCell res (o pos % GRID_SIZE) (o (pos + 1) % GRID_SIZE) UNASSIGNED) (attempts - 1)
      else removeLoop o fuel (pos + 2) res attempts
    else some (res, pos)

/-- The function `removeCells`: clear `level` cells of a copy of `grid`. -/
def removeCells (o : Oracle) (fuel pos : Nat) (grid : Grid) (level : Int) :
    Option (Grid × Nat) :=
  removeLoop o fuel pos (deepCopy grid) level

/-- The value `{ original, question }`. -/
structure Puzzle where
  original : Grid
  question : Grid
deriving DecidableEq

/-- The function `sudokuGen`: `none` when the fuel ran out, `some none` for the source's
`undefined`, `some (some p)` for a returned puzzle. -/
def sudokuGen (o : Oracle) (fuel : Nat) (level : Int) : Option (Option Puzzle) :=
  match sudokuCreate o fuel 0 (newGrid GRID_SIZE) with
  | none => none
  | some (false, _, _) => some none
  | some (true, sudoku, pos) =>
    match removeCells o fuel pos sudoku level with
    | none => none
    | some (question, _) => some (some { original := deepCopy sudoku, question := question })

/-! ## Specification vocabulary -/

/-- Two positions lie in a common unit: the same row, the same column or the
same 3x3 box. -/
def SameUnit (r c r' c' : Nat) : Prop :=
  r = r' ∨ c = c' ∨ (r / 3 = r' / 3 ∧ c / 3 = c' / 3)

/-- Two distinct cells lying in the same row, column or box hold the same
nonzero value. -/
def HasDuplicate (g : Grid) : Prop :=
  ∃ r c r' c', r < 9 ∧ c < 9 ∧ r' < 9 ∧ c' < 9 ∧ (r ≠ r' ∨ c ≠ c') ∧ SameUnit r c r' c' ∧
    cellAt g r c ≠ 0 ∧ cellAt g r c = cellAt g r' c'

/-- Every cell holds a value of `0 .. 9`. -/
def Digits (g : Grid) : Prop := ∀ r, r < 9 → ∀ c, c < 9 → cellAt g r c ≤ 9

/-- No cell is unassigned. -/
def Full (g : Grid) : Prop := ∀ r, r < 9 → ∀ c, c < 9 → cellAt g r c ≠ 0

/-- A solved grid: 9x9, and every row, every column and every 3x3 box
contains each digit 1..9 exactly once. -/
def Solved (g : Grid) : Prop :=
  Is9x9 g ∧
  (∀ r, r < 9 → ∀ d, 1 ≤ d → d ≤ 9 → ∃! c, c < 9 ∧ cellAt g r c = d) ∧
  (∀ c, c < 9 → ∀ d, 1 ≤ d → d ≤ 9 → ∃! r, r < 9 ∧ cellAt g r c = d) ∧
  (∀ br, br < 3 → ∀ bc, bc < 3 → ∀ d, 1 ≤ d → d ≤ 9 →
    ∃! p : Nat × Nat, p.1 / 3 = br ∧ p.2 / 3 = bc ∧ cellAt g p.1 p.2 = d)

instance (g : Grid) : Decidable (Digits g) := by
  unfold Digits; infer_instance

instance (g : Grid) : Decidable (Full g) := by
  unfold Full; infer_instance

/-- The grid `h` agrees with `g` on every nonzero cell of `g`. -/
def Extends (h g : Grid) : Prop :=
  ∀ r, r < 9 → ∀ c, c < 9 → cellAt g r c ≠ 0 → cellAt h r c = cellAt g r c

/-- The positions of a 9x9 grid. -/
def positions : Finset (Nat × Nat) := Finset.range 9 ×ˢ Finset.range 9

/-- The number of cells equal to 0. -/
def zeroCount (g : Grid) : Nat := (positions.filter (fun p => cellAt g p.1 p.2 = 0)).card

/-- The number of nonzero cells. -/
def filledCount (g : Grid) : Nat := (positions.filter (fun p => cellAt g p.1 p.2 ≠ 0)).card

/-- What a returning call of `sudokuCreate` on the grid `g` guarantees about
its boolean `b` and the grid `g'` it leaves: on `false` the grid is restored;
on `true` the grid is full and keeps the nonzero cells of `g`; and when `g`
holds values `0 .. 9` without duplicate, `true` leaves such a grid and
`false` means that no solved grid agrees with `g`. -/
def CreatePost (g : Grid) (b : Bool) (g' : Grid) : Prop :=
  Is9x9 g' ∧ (b = false → g' = g) ∧ (b = true → Full g' ∧ Extends g' g) ∧
  (Digits g → ¬ HasDuplicate g →
    (b = true → Digits g' ∧ ¬ HasDuplicate g') ∧
    (b = false → ∀ H, Solved H → ¬ Extends H g))

/-- The draws read from position `pos` on, two per iteration of the loop of
`removeCells`, pick every cell again and again: whatever the cell and however
late, a later iteration picks it. -/
def FairFrom (o : Oracle) (pos : Nat) : Prop :=
  ∀ n r c, r < 9 → c < 9 →
    ∃ m, n ≤ m ∧ o (pos + 2 * m) % GRID_SIZE = r ∧ o (pos + 2 * m + 1) % GRID_SIZE = c

/-! ## Sample data -/

/-- A solved grid: the one the search reaches when no shuffle moves a digit. -/
def solvedExample : Grid :=
  [[1, 2, 3, 4, 5, 6, 7, 8, 9],
   [4, 5, 6, 7, 8, 9, 1, 2, 3],
   [7, 8, 9, 1, 2, 3, 4, 5, 6],
   [2, 1, 4, 3, 6, 5, 8, 9, 7],
   [3, 6, 5, 8, 9, 7, 2, 1, 4],
   [8, 9, 7, 2, 1, 4, 3, 6, 5],
   [5, 3, 1, 6, 4, 2, 9, 7, 8],
   [6, 4, 2, 9, 7, 8, 5, 3, 1],
   [9, 7, 8, 5, 3, 1, 6, 4, 2]]

/-- An outcome of the draws: while the grid is being filled (eight draws per
cell, positions below 648) each shuffle brings the digit of `solvedExample`
to the front; afterwards the cell picks sweep the grid in row-major order. -/
def sampleOracle : Oracle := fun n =>
  if n < 648 then
    if 8 - n % 8 + 1 = cellAt solvedExample (n / 8 / 9) (n / 8 % 9) then 0 else 8 - n % 8
  else if n % 2 = 0 then (n - 648) / 2 / 9 else (n - 648) / 2 % 9

/-- The puzzle `sudokuGen` returns at difficulty 40 under `sampleOracle`. -/
def samplePuzzle : Puzzle :=
  { original := solvedExample
    question :=
      [[0, 0, 0, 0, 0, 0, 0, 0, 0],
       [0, 0, 0, 0, 0, 0, 0, 0, 0],
       [0, 0, 0, 0, 0, 0, 0, 0, 0],
       [0, 0, 0, 0, 0, 0, 0, 0, 0],
       [0, 0, 0, 0, 9, 7, 2, 1, 4],
       [8, 9, 7, 2, 1, 4, 3, 6, 5],
       [5, 3, 1, 6, 4, 2, 9, 7, 8],
       [6, 4, 2, 9, 7, 8, 5, 3, 1],
       [9, 7, 8, 5, 3, 1, 6, 4, 2]] }

/-- A grid with the value 1 twice in row 0 and every other cell unassigned. -/
def rowClash : Grid :=
  [[1, 1, 0, 0, 0, 0, 0, 0, 0],
   [0, 0, 0, 0, 0, 0, 0, 0, 0],
   [0, 0, 0, 0, 0, 0, 0, 0, 0],
   [0, 0, 0, 0, 0, 0, 0, 0, 0],
   [0, 0, 0, 0, 0, 0, 0, 0, 0],
   [0, 0, 0, 0, 0, 0, 0, 0, 0],
   [0, 0, 0, 0, 0, 0, 0, 0, 0],
   [0, 0, 0, 0, 0, 0, 0, 0, 0],
   [0, 0, 0, 0, 0, 0, 0, 0, 0]]

/-- The position `(a, b)` precedes `(r, c)` in row-major order. -/
def Before (a b r c : Nat) : Prop := a < r ∨ (a = r ∧ b < c)

instance (a b r c : Nat) : Decidable (Before a b r c) := by
  unfold Before; infer_instance

/-- The cell `(r, c)` holds a nonzero value that also occurs in another cell
of its row, column or box. -/
def Conflicting (g : Grid) (r c : Nat) : Prop :=
  cellAt g r c ≠ 0 ∧
    ∃ r' c', r' < 9 ∧ c' < 9 ∧ (r ≠ r' ∨ c ≠ c') ∧ SameUnit r c r' c' ∧
      cellAt g r' c' = cellAt g r c

/-- A completely filled grid with the value 1 twice in row 0. -/
def clashFull : Grid :=
  [[1, 1, 3, 4, 5, 6, 7, 8, 9],
   [4, 5, 6, 7, 8, 9, 1, 2, 3],
   [7, 8, 9, 1, 2, 3, 4, 5, 6],
   [2, 1, 4, 3, 6, 5, 8, 9, 7],
   [3, 6, 5, 8, 9, 7, 2, 1, 4],
   [8, 9, 7, 2, 1, 4, 3, 6, 5],
   [5, 3, 1, 6, 4, 2, 9, 7, 8],
   [6, 4, 2, 9, 7, 8, 5, 3, 1],
   [9, 7, 8, 5, 3, 1, 6, 4, 2]]

/-- A grid with two unassigned cells, (8, 7) and (8, 8), that no solved grid
extends: 4 can be placed at (8, 7), after which no digit is safe at
(8, 8). -/
def nearMiss : Grid :=
  [[1, 2, 3, 4, 5, 6, 7, 8, 9],
   [4, 5, 6, 7, 8, 9, 1, 2, 3],
   [7, 8, 9, 1, 2, 3, 4, 5, 6],
   [2, 1, 4, 3, 6, 5, 8, 9, 7],
   [3, 6, 5, 8, 9, 7, 2, 1, 4],
   [8, 9, 7, 2, 1, 4, 3, 6, 5],
   [5, 3, 1, 6, 4, 2, 9, 7, 8],
   [6, 4, 2, 9, 7, 8, 5, 3, 2],
   [9, 7, 8, 5, 3, 1, 6, 0, 0]]

/-! ## Reading and writing cells -/

theorem forall_mem_iff_getD {α : Type} (l : List α) (d : α) (P : α → Prop) :
    (∀ x ∈ l, P x) ↔ ∀ i, i < l.length → P (l.getD i d) := by
  constructor
  · intro h i hi
    have : l.getD i d = l[i] := by simp [List.getD_eq_getElem?_getD, hi]
    rw [this]; exact h _ (List.getElem_mem hi)
  · intro h x hx
    obtain ⟨i, hi, rfl⟩ := List.getElem_of_mem hx
    have : l.getD i d = l[i] := by simp [List.getD_eq_getElem?_getD, hi]
    rw [← this]; exact h i hi

theorem Is9x9.row_length {g : Grid} (h : Is9x9 g) {r : Nat} (hr : r < 9) :
    (g.getD r []).length = 9 := by
  have hr' : r < g.length := by rw [h.1]; exact hr
  have : g.getD r [] = g[r] := by simp [List.getD_eq_getElem?_getD, hr']
  rw [this]; exact h.2 _ (List.getElem_mem hr')

theorem Is9x9.setCell {g : Grid} (h : Is9x9 g) (r c v : Nat) : Is9x9 (setCell g r c v) := by
  refine ⟨by simp [Sudoku.setCell, h.1], ?_⟩
  intro row hrow
  unfold Sudoku.setCell at hrow
  rcases List.mem_or_eq_of_mem_set hrow with h1 | h1
  · exact h.2 _ h1
  · subst h1
    rw [List.length_set]
    by_cases hr : r < g.length
    · have : g.getD r [] = g[r] := by simp [List.getD_eq_getElem?_getD, hr]
      rw [this]; exact h.2 _ (List.getElem_mem hr)
    · rw [List.set_eq_of_length_le (by omega)] at hrow
      exact (List.length_set _ _ _).symm ▸ h.2 _ hrow

theorem cellAt_setCell {g : Grid} (h : Is9x9 g) {r c : Nat} (hr : r < 9) (hc : c < 9)
    (v r' c' : Nat) :
    cellAt (setCell g r c v) r' c' = if r' = r ∧ c' = c then v else cellAt g r' c' := by
  have hr' : r < g.length := by rw [h.1]; exact hr
  have hc' : c < (g.getD r []).length := by rw [h.row_length hr]; exact hc
  unfold cellAt Sudoku.setCell
  simp only [List.getD_eq_getElem?_getD, List.getElem?_set]
  by_cases e1 : r = r'
  · subst e1
    by_cases e2 : c = c'
    · subst e2
      have hc2 : c < g[r].length := by
        simpa [List.getD_eq_getElem?_getD, hr'] using hc'
      simp [hr', List.getElem?_set, hc2]
    · have e3 : ¬ c' = c := fun e => e2 e.symm
      simp [hr', List.getElem?_set, e2, e3]
  · have e3 : ¬ r' = r := fun e => e1 e.symm
    simp [e1, e3]


theorem cellAt_setCell_same {g : Grid} (h : Is9x9 g) {r c : Nat} (hr : r < 9) (hc : c < 9)
    (v : Nat) : cellAt (setCell g r c v) r c = v := by
  rw [cellAt_setCell h hr hc]; simp

theorem grid_ext {g h : Grid} (hg : Is9x9 g) (hh : Is9x9 h)
    (H : ∀ r, r < 9 → ∀ c, c < 9 → cellAt g r c = cellAt h r c) : g = h := by
  apply List.ext_getElem (by rw [hg.1, hh.1])
  intro r hr1 hr2
  have hr : r < 9 := by rw [← hg.1]; exact hr1
  have e1 : g.getD r [] = g[r] := by simp [List.getD_eq_getElem?_getD, hr1]
  have e2 : h.getD r [] = h[r] := by simp [List.getD_eq_getElem?_getD, hr2]
  have l1 := hg.row_length hr
  have l2 := hh.row_length hr
  rw [e1] at l1; rw [e2] at l2
  apply List.ext_getElem (by rw [l1, l2])
  intro c hc1 hc2
  have hc : c < 9 := by rw [← l1]; exact hc1
  have := H r hr c hc
  unfold cellAt at this
  rw [e1, e2] at this
  simpa [List.getD_eq_getElem?_getD, hc1, hc2] using this

theorem setCell_restore {g : Grid} (h : Is9x9 g) {r c : Nat} (hr : r < 9) (hc : c < 9)
    (v : Nat) : setCell (setCell g r c v) r c (cellAt g r c) = g := by
  apply grid_ext ((h.setCell r c v).setCell r c _) h
  intro r' _ c' _
  rw [cellAt_setCell (h.setCell r c v) hr hc, cellAt_setCell h hr hc]
  by_cases e : r' = r ∧ c' = c
  · simp [e]
  · simp [e]

theorem setCell_setCell {g : Grid} (h : Is9x9 g) {r c : Nat} (hr : r < 9) (hc : c < 9)
    (v w : Nat) : setCell (setCell g r c v) r c w = setCell g r c w := by
  apply grid_ext ((h.setCell r c v).setCell r c _) (h.setCell r c w)
  intro r' _ c' _
  rw [cellAt_setCell (h.setCell r c v) hr hc, cellAt_setCell h hr hc, cellAt_setCell h hr hc]
  by_cases e : r' = r ∧ c' = c
  · simp [e]
  · simp [e]

theorem newGrid_is9x9 : Is9x9 (newGrid GRID_SIZE) := by decide

theorem cellAt_newGrid (r c : Nat) : cellAt (newGrid GRID_SIZE) r c = 0 := by
  unfold cellAt newGrid UNASSIGNED
  simp only [List.getD_eq_getElem?_getD, List.getElem?_replicate]
  by_cases hr : r < GRID_SIZE
  · by_cases hc : c < GRID_SIZE
    · simp [hr, hc]
    · simp [hr, hc]
  · simp [hr]

theorem deepCopy_eq (g : Grid) : deepCopy g = g := by
  unfold deepCopy; simp

/-! ## The constraint checker, cell by cell -/

theorem isRowSafe_iff {g : Grid} (h : Is9x9 g) {row : Nat} (hr : row < 9) (v : Nat) :
    isRowSafe g row v = true ↔ ∀ c, c < 9 → cellAt g row c ≠ v := by
  unfold isRowSafe cellAt
  have := forall_mem_iff_getD (g.getD row []) 0 (fun x => x ≠ v)
  rw [h.row_length hr] at this
  rw [← this]
  simp [List.any_eq_true]

theorem isColSafe_iff {g : Grid} (h : Is9x9 g) (col v : Nat) :
    isColSafe g col v = true ↔ ∀ r, r < 9 → cellAt g r col ≠ v := by
  unfold isColSafe cellAt
  have := forall_mem_iff_getD g [] (fun x => x.getD col 0 ≠ v)
  rw [h.1] at this
  rw [← this]
  simp [List.any_eq_true]

theorem isBoxSafe_iff (g : Grid) (boxRow boxCol v : Nat) :
    isBoxSafe g boxRow boxCol v = true ↔
      ∀ r, r < 3 → ∀ c, c < 3 → cellAt g (boxRow + r) (boxCol + c) ≠ v := by
  unfold isBoxSafe BOX_SIZE
  simp [List.any_eq_true, List.mem_range]

theorem isSafe_iff {g : Grid} (h : Is9x9 g) {row col : Nat} (hr : row < 9) (hc : col < 9)
    (v : Nat) :
    isSafe g row col v = true ↔
      v ≠ 0 ∧ (∀ c, c < 9 → cellAt g row c ≠ v) ∧ (∀ r, r < 9 → cellAt g r col ≠ v) ∧
        (∀ r, r < 9 → ∀ c, c < 9 → r / 3 = row / 3 → c / 3 = col / 3 → cellAt g r c ≠ v) := by
  unfold isSafe UNASSIGNED
  simp only [Bool.and_eq_true, bne_iff_ne, ne_eq, isRowSafe_iff h hr, isColSafe_iff h,
    isBoxSafe_iff]
  constructor
  · rintro ⟨⟨⟨h1, h2⟩, h3⟩, h4⟩
    refine ⟨h1, h2, h3, ?_⟩
    intro r hr9 c hc9 e1 e2
    have := h4 (r % 3) (Nat.mod_lt _ (by norm_num)) (c % 3) (Nat.mod_lt _ (by norm_num))
    have er : row - row % 3 + r % 3 = r := by omega
    have ec : col - col % 3 + c % 3 = c := by omega
    rw [er, ec] at this
    exact this
  · rintro ⟨h1, h2, h3, h4⟩
    refine ⟨⟨⟨h1, h2⟩, h3⟩, ?_⟩
    intro r hr3 c hc3
    exact h4 _ (by omega) _ (by omega) (by omega) (by omega)

/-! ## Finding the first unassigned cell -/

theorem findUnassignedPos_none {g : Grid} (h : findUnassignedPos g = none) : Full g := by
  intro r hr c hc hz
  unfold findUnassignedPos GRID_SIZE UNASSIGNED at h
  rw [List.findSome?_eq_none_iff] at h
  have h1 := h r (List.mem_range.2 hr)
  rw [List.findSome?_eq_none_iff] at h1
  have h2 := h1 c (List.mem_range.2 hc)
  simp [hz] at h2

theorem findUnassignedPos_some {g : Grid} {r c : Nat} (h : findUnassignedPos g = some (r, c)) :
    r < 9 ∧ c < 9 ∧ cellAt g r c = 0 := by
  unfold findUnassignedPos GRID_SIZE UNASSIGNED at h
  obtain ⟨r', hr', h1⟩ := List.exists_of_findSome?_eq_some h
  obtain ⟨c', hc', h2⟩ := List.exists_of_findSome?_eq_some h1
  rw [List.mem_range] at hr' hc'
  split at h2
  · rename_i hz
    simp only [Option.some.injEq, Prod.mk.injEq] at h2
    obtain ⟨rfl, rfl⟩ := h2
    exact ⟨hr', hc', by simpa using hz⟩
  · simp at h2

/-! ## Counting cells -/

theorem mem_positions {p : Nat × Nat} : p ∈ positions ↔ p.1 < 9 ∧ p.2 < 9 := by
  simp [positions]

theorem zeroCount_add_filledCount (g : Grid) : zeroCount g + filledCount g = 81 := by
  unfold zeroCount filledCount
  rw [Finset.filter_card_add_filter_neg_card_eq_card]
  rfl

theorem zeroCount_setCell_zero {g : Grid} (h : Is9x9 g) {r c : Nat} (hr : r < 9) (hc : c < 9)
    (hv : cellAt g r c ≠ 0) : zeroCount (setCell g r c 0) = zeroCount g + 1 := by
  unfold zeroCount
  have : positions.filter (fun p => cellAt (setCell g r c 0) p.1 p.2 = 0) =
      insert (r, c) (positions.filter (fun p => cellAt g p.1 p.2 = 0)) := by
    ext ⟨r', c'⟩
    simp only [Finset.mem_filter, Finset.mem_insert, mem_positions, Prod.mk.injEq,
      cellAt_setCell h hr hc]
    by_cases e : r' = r ∧ c' = c
    · obtain ⟨rfl, rfl⟩ := e; simp [hr, hc]
    · simp [e]
  rw [this, Finset.card_insert_of_not_mem]
  simp [hv]

theorem zeroCount_setCell_fill {g : Grid} (h : Is9x9 g) {r c : Nat} (hr : r < 9) (hc : c < 9)
    (hz : cellAt g r c = 0) {v : Nat} (hv : v ≠ 0) :
    zeroCount (setCell g r c v) + 1 = zeroCount g := by
  have h1 := zeroCount_setCell_zero (h.setCell r c v) hr hc
    (by rw [cellAt_setCell_same h hr hc]; exact hv)
  rw [setCell_setCell h hr hc] at h1
  have h2 : setCell g r c 0 = g := by
    have := setCell_restore h hr hc 0
    rw [setCell_setCell h hr hc, hz] at this
    exact this
  rw [h2] at h1
  exact h1.symm

theorem zeroCount_eq_zero_iff (g : Grid) : zeroCount g = 0 ↔ Full g := by
  unfold zeroCount Full
  rw [Finset.card_eq_zero, Finset.filter_eq_empty_iff]
  constructor
  · intro h r hr c hc
    exact h (show (r, c) ∈ positions from mem_positions.2 ⟨hr, hc⟩)
  · intro h p hp
    exact h _ (mem_positions.1 hp).1 _ (mem_positions.1 hp).2

/-! ## The shuffle is a permutation -/

theorem swapAt_perm (a : List Nat) {i j : Nat} (hi : i < a.length) (hj : j < a.length) :
    (swapAt a i j).Perm a := by
  rw [List.perm_iff_count]
  intro x
  unfold swapAt
  have e1 : a.getD i 0 = a[i] := by simp [List.getD_eq_getElem?_getD, hi]
  have e2 : a.getD j 0 = a[j] := by simp [List.getD_eq_getElem?_getD, hj]
  rw [e1, e2, List.count_set _ _ _ _ (by simpa using hj), List.count_set _ _ _ _ hi]
  have c1 : (if a[i] == x then 1 else 0) ≤ a.count x := by
    split
    · rename_i hx
      have : a[i] = x := by simpa using hx
      rw [← this]
      exact List.count_pos_iff.2 (List.getElem_mem hi)
    · omega
  have c2 : (if a[j] == x then 1 else 0) ≤ a.count x := by
    split
    · rename_i hx
      have : a[j] = x := by simpa using hx
      rw [← this]
      exact List.count_pos_iff.2 (List.getElem_mem hj)
    · omega
  by_cases e : j = i
  · subst e
    simp only [List.getElem_set_self]
    omega
  · have e' : i ≠ j := fun h => e h.symm
    rw [List.getElem_set_ne e']
    by_cases hx1 : (a[i] == x) = true <;> by_cases hx2 : (a[j] == x) = true <;>
      simp only [hx1, hx2, if_true, if_false] at c1 c2 ⊢ <;> omega

theorem shuffleLoop_perm (o : Oracle) :
    ∀ (i pos : Nat) (a : List Nat), i < a.length → (shuffleLoop o i pos a).1.Perm a := by
  intro i
  induction i with
  | zero => intro pos a _; exact List.Perm.refl _
  | succ i ih =>
    intro pos a hi
    unfold shuffleLoop
    have hj : o pos % (i + 2) < a.length :=
      lt_of_lt_of_le (Nat.mod_lt _ (by omega)) (by omega)
    have hp := swapAt_perm a hi hj
    exact (ih (pos + 1) _ (by rw [hp.length_eq]; omega)).trans hp

theorem shuffleArray_perm (o : Oracle) (pos : Nat) (arr : List Nat) :
    (shuffleArray o pos arr).1.Perm arr := by
  unfold shuffleArray
  cases arr with
  | nil => exact List.Perm.refl _
  | cons x xs => exact shuffleLoop_perm o _ pos _ (by simp)

theorem mem_shuffled_NUMBERS (o : Oracle) (pos x : Nat) :
    x ∈ (shuffleArray o pos NUMBERS).1 ↔ 1 ≤ x ∧ x ≤ 9 := by
  rw [(shuffleArray_perm o pos NUMBERS).mem_iff]
  unfold NUMBERS
  simp only [List.mem_cons, List.mem_singleton, List.not_mem_nil, or_false]
  omega

/-! ## The validator -/

theorem isSafe_iff_sameUnit {g : Grid} (h : Is9x9 g) {row col : Nat} (hr : row < 9)
    (hc : col < 9) (v : Nat) :
    isSafe g row col v = true ↔
      v ≠ 0 ∧ ∀ r, r < 9 → ∀ c, c < 9 → SameUnit row col r c → cellAt g r c ≠ v := by
  rw [isSafe_iff h hr hc]
  constructor
  · rintro ⟨h1, h2, h3, h4⟩
    refine ⟨h1, ?_⟩
    intro r hr9 c hc9 hu
    rcases hu with e | e | ⟨e1, e2⟩
    · subst e; exact h2 c hc9
    · subst e; exact h3 r hr9
    · exact h4 r hr9 c hc9 e1.symm e2.symm
  · rintro ⟨h1, h2⟩
    refine ⟨h1, ?_, ?_, ?_⟩
    · intro c hc9; exact h2 row hr c hc9 (Or.inl rfl)
    · intro r hr9; exact h2 r hr9 col hc (Or.inr (Or.inl rfl))
    · intro r hr9 c hc9 e1 e2; exact h2 r hr9 c hc9 (Or.inr (Or.inr ⟨e1.symm, e2.symm⟩))

theorem isSafe_cleared_iff {g : Grid} (h : Is9x9 g) {r c : Nat} (hr : r < 9) (hc : c < 9)
    (hv : cellAt g r c ≠ 0) :
    isSafe (setCell g r c 0) r c (cellAt g r c) = true ↔
      ∀ r', r' < 9 → ∀ c', c' < 9 → (r ≠ r' ∨ c ≠ c') → SameUnit r c r' c' →
        cellAt g r c ≠ cellAt g r' c' := by
  rw [isSafe_iff_sameUnit (h.setCell r c 0) hr hc]
  constructor
  · rintro ⟨_, h2⟩ r' hr' c' hc' hne hu
    have := h2 r' hr' c' hc' hu
    rw [cellAt_setCell h hr hc] at this
    have e : ¬ (r' = r ∧ c' = c) := by
      rintro ⟨rfl, rfl⟩; rcases hne with e | e <;> exact e rfl
    rw [if_neg e] at this
    exact fun heq => this heq.symm
  · intro h2
    refine ⟨hv, ?_⟩
    intro r' hr' c' hc' hu
    rw [cellAt_setCell h hr hc]
    by_cases e : r' = r ∧ c' = c
    · rw [if_pos e]; exact fun heq => hv heq.symm
    · rw [if_neg e]
      have hne : r ≠ r' ∨ c ≠ c' := by
        by_contra hcon
        push_neg at hcon
        exact e ⟨hcon.1.symm, hcon.2.symm⟩
      exact fun heq => h2 r' hr' c' hc' hne hu heq.symm

theorem mem_scanOrder {p : Nat × Nat} : p ∈ scanOrder ↔ p.1 < 9 ∧ p.2 < 9 := by
  obtain ⟨r, c⟩ := p
  unfold scanOrder GRID_SIZE
  simp only [List.mem_flatMap, List.mem_range, List.mem_map, Prod.mk.injEq]
  constructor
  · rintro ⟨a, ha, b, hb, rfl, rfl⟩; exact ⟨ha, hb⟩
  · rintro ⟨h1, h2⟩; exact ⟨r, h1, c, h2, rfl, rfl⟩

theorem checkCells_true_iff {g : Grid} (h : Is9x9 g) :
    ∀ ps : List (Nat × Nat), (∀ p ∈ ps, p.1 < 9 ∧ p.2 < 9) →
      ((checkCells ps g).1 = true ↔
        ∀ p ∈ ps, cellAt g p.1 p.2 ≠ 0 →
          isSafe (setCell g p.1 p.2 0) p.1 p.2 (cellAt g p.1 p.2) = true) := by
  intro ps
  induction ps with
  | nil => intro _; simp [checkCells]
  | cons p rest ih =>
    intro hps
    obtain ⟨r, c⟩ := p
    have hrc := hps (r, c) (List.mem_cons_self _ _)
    have ih' := ih (fun q hq => hps q (List.mem_cons_of_mem _ hq))
    unfold checkCells
    simp only [UNASSIGNED, List.mem_cons, forall_eq_or_imp]
    by_cases hv : cellAt g r c = 0
    · simp only [hv, bne_self_eq_false, Bool.false_eq_true, if_false]
      rw [ih']
      simp
    · have hb : (cellAt g r c != 0) = true := by simpa using hv
      rw [if_pos hb]
      by_cases hs : isSafe (setCell g r c 0) r c (cellAt g r c) = true
      · simp only [hs, Bool.not_true, Bool.false_eq_true, if_false]
        rw [setCell_restore h hrc.1 hrc.2, ih']
        simp [hs]
      · simp only [Bool.not_eq_true] at hs
        simp [hs, hv]

theorem checkCells_true_grid {g : Grid} (h : Is9x9 g) :
    ∀ ps : List (Nat × Nat), (∀ p ∈ ps, p.1 < 9 ∧ p.2 < 9) →
      (checkCells ps g).1 = true → (checkCells ps g).2 = g := by
  intro ps
  induction ps with
  | nil => intro _ _; simp [checkCells]
  | cons p rest ih =>
    intro hps
    obtain ⟨r, c⟩ := p
    have hrc := hps (r, c) (List.mem_cons_self _ _)
    have ih' := ih (fun q hq => hps q (List.mem_cons_of_mem _ hq))
    unfold checkCells
    simp only [UNASSIGNED]
    by_cases hv : cellAt g r c = 0
    · simp only [hv, bne_self_eq_false, Bool.false_eq_true, if_false]
      exact ih'
    · have hb : (cellAt g r c != 0) = true := by simpa using hv
      rw [if_pos hb]
      by_cases hs : isSafe (setCell g r c 0) r c (cellAt g r c) = true
      · simp only [hs, Bool.not_true, Bool.false_eq_true, if_false]
        rw [setCell_restore h hrc.1 hrc.2]
        exact ih'
      · simp only [Bool.not_eq_true] at hs
        simp [hs]

theorem sudokuCheck_true_iff {g : Grid} (h : Is9x9 g) :
    (sudokuCheck g).1 = true ↔ ¬ HasDuplicate g := by
  unfold sudokuCheck
  rw [checkCells_true_iff h scanOrder (fun p hp => mem_scanOrder.1 hp)]
  constructor
  · intro hall
    rintro ⟨r, c, r', c', hr, hc, hr', hc', hne, hu, hv, heq⟩
    have := hall (r, c) (mem_scanOrder.2 ⟨hr, hc⟩) hv
    rw [isSafe_cleared_iff h hr hc hv] at this
    exact this r' hr' c' hc' hne hu heq
  · intro hno p hp hv
    obtain ⟨r, c⟩ := p
    have hrc := mem_scanOrder.1 hp
    rw [isSafe_cleared_iff h hrc.1 hrc.2 hv]
    intro r' hr' c' hc' hne hu heq
    exact hno ⟨r, c, r', c', hrc.1, hrc.2, hr', hc', hne, hu, hv, heq⟩

/-! ## Solved grids -/

theorem pigeon9 (f : Nat → Nat) (hrange : ∀ i, i < 9 → 1 ≤ f i ∧ f i ≤ 9)
    (hinj : ∀ i, i < 9 → ∀ j, j < 9 → f i = f j → i = j) (d : Nat) (h1 : 1 ≤ d) (h9 : d ≤ 9) :
    ∃! i, i < 9 ∧ f i = d := by
  have hs := Finset.surj_on_of_inj_on_of_card_le (s := Finset.range 9) (t := Finset.Icc 1 9)
    (fun a _ => f a)
    (fun a ha => Finset.mem_Icc.2 (hrange a (Finset.mem_range.1 ha)))
    (fun a b ha hb e => hinj a (Finset.mem_range.1 ha) b (Finset.mem_range.1 hb) e)
    (by simp)
  obtain ⟨i, hi, e⟩ := hs d (Finset.mem_Icc.2 ⟨h1, h9⟩)
  refine ⟨i, ⟨Finset.mem_range.1 hi, e.symm⟩, ?_⟩
  rintro j ⟨hj, ej⟩
  exact hinj j hj i (Finset.mem_range.1 hi) (by rw [ej, e])

theorem solved_of_valid {g : Grid} (h : Is9x9 g) (hfull : Full g) (hdig : Digits g)
    (hdup : ¬ HasDuplicate g) : Solved g := by
  have hrange : ∀ r, r < 9 → ∀ c, c < 9 → 1 ≤ cellAt g r c ∧ cellAt g r c ≤ 9 := by
    intro r hr c hc
    exact ⟨Nat.one_le_iff_ne_zero.2 (hfull r hr c hc), hdig r hr c hc⟩
  have hne : ∀ r, r < 9 → ∀ c, c < 9 → ∀ r', r' < 9 → ∀ c', c' < 9 → SameUnit r c r' c' →
      cellAt g r c = cellAt g r' c' → r = r' ∧ c = c' := by
    intro r hr c hc r' hr' c' hc' hu heq
    by_contra hcon
    apply hdup
    refine ⟨r, c, r', c', hr, hc, hr', hc', ?_, hu, hfull r hr c hc, heq⟩
    by_contra h2
    push_neg at h2
    exact hcon h2
  refine ⟨h, ?_, ?_, ?_⟩
  · intro r hr d h1 h9
    exact pigeon9 (fun c => cellAt g r c) (fun c hc => hrange r hr c hc)
      (fun c hc c' hc' e => (hne r hr c hc r hr c' hc' (Or.inl rfl) e).2) d h1 h9
  · intro c hc d h1 h9
    exact pigeon9 (fun r => cellAt g r c) (fun r hr => hrange r hr c hc)
      (fun r hr r' hr' e => (hne r hr c hc r' hr' c hc (Or.inr (Or.inl rfl)) e).1) d h1 h9
  · intro br hbr bc hbc d h1 h9
    obtain ⟨i, ⟨hi, ei⟩, huniq⟩ :=
      pigeon9 (fun i => cellAt g (3 * br + i / 3) (3 * bc + i % 3))
        (fun i hi => hrange _ (by omega) _ (by omega))
        (fun i hi j hj e => by
          have := hne (3 * br + i / 3) (by omega) (3 * bc + i % 3) (by omega)
            (3 * br + j / 3) (by omega) (3 * bc + j % 3) (by omega)
            (Or.inr (Or.inr ⟨by omega, by omega⟩)) e
          omega) d h1 h9
    refine ⟨(3 * br + i / 3, 3 * bc + i % 3), ⟨by simp only; omega, by simp only; omega, ei⟩, ?_⟩
    rintro ⟨r, c⟩ ⟨e1, e2, e3⟩
    simp only at e1 e2 e3
    have hr : 3 * br + (r % 3 * 3 + c % 3) / 3 = r := by omega
    have hc : 3 * bc + (r % 3 * 3 + c % 3) % 3 = c := by omega
    have := huniq (r % 3 * 3 + c % 3) ⟨by omega, by rw [hr, hc]; exact e3⟩
    rw [← this]
    simp only [Prod.mk.injEq]
    omega

theorem Solved.cell_range {g : Grid} (h : Solved g) {r c : Nat} (hr : r < 9) (hc : c < 9) :
    1 ≤ cellAt g r c ∧ cellAt g r c ≤ 9 := by
  obtain ⟨_, hrow, _, _⟩ := h
  have hex : ∀ d, d ∈ Finset.Icc 1 9 → ∃ c, c < 9 ∧ cellAt g r c = d := by
    intro d hd
    obtain ⟨h1, h9⟩ := Finset.mem_Icc.1 hd
    exact (hrow r hr d h1 h9).exists
  have hs := Finset.surj_on_of_inj_on_of_card_le (s := Finset.Icc 1 9) (t := Finset.range 9)
    (fun d hd => (hex d hd).choose)
    (fun d hd => Finset.mem_range.2 (hex d hd).choose_spec.1)
    (fun d d' hd hd' e => by
      have e1 := (hex d hd).choose_spec.2
      have e2 := (hex d' hd').choose_spec.2
      simp only at e
      rw [← e1, ← e2, e])
    (by simp)
  obtain ⟨d, hd, e⟩ := hs c (Finset.mem_range.2 hc)
  have e1 := (hex d hd).choose_spec.2
  have e2 : c = (hex d hd).choose := e
  rw [← e2] at e1
  rw [e1]
  exact Finset.mem_Icc.1 hd

theorem Solved.full {g : Grid} (h : Solved g) : Full g := by
  intro r hr c hc
  have := (h.cell_range hr hc).1
  omega

theorem Solved.digits {g : Grid} (h : Solved g) : Digits g :=
  fun _ hr _ hc => (h.cell_range hr hc).2

theorem Solved.no_duplicate {g : Grid} (h : Solved g) : ¬ HasDuplicate g := by
  rintro ⟨r, c, r', c', hr, hc, hr', hc', hne, hu, _, heq⟩
  have hrange := h.cell_range hr hc
  obtain ⟨_, hrow, hcol, hbox⟩ := h
  rcases hu with e | e | ⟨e1, e2⟩
  · subst e
    have := (hrow r hr _ hrange.1 hrange.2).unique ⟨hc, rfl⟩ ⟨hc', heq.symm⟩
    rcases hne with h1 | h1
    · exact h1 rfl
    · exact h1 this
  · subst e
    have := (hcol c hc _ hrange.1 hrange.2).unique ⟨hr, rfl⟩ ⟨hr', heq.symm⟩
    rcases hne with h1 | h1
    · exact h1 this
    · exact h1 rfl
  · have key : ∀ p q : Nat × Nat,
        (p.1 / 3 = r / 3 ∧ p.2 / 3 = c / 3 ∧ cellAt g p.1 p.2 = cellAt g r c) →
        (q.1 / 3 = r / 3 ∧ q.2 / 3 = c / 3 ∧ cellAt g q.1 q.2 = cellAt g r c) → p = q :=
      fun p q hp hq =>
        (hbox (r / 3) (by omega) (c / 3) (by omega) _ hrange.1 hrange.2).unique hp hq
    have := key (r, c) (r', c') ⟨rfl, rfl, rfl⟩ ⟨e1.symm, e2.symm, heq.symm⟩
    simp only [Prod.mk.injEq] at this
    rcases hne with h1 | h1
    · exact h1 this.1
    · exact h1 this.2

theorem solved_iff {g : Grid} :
    Solved g ↔ Is9x9 g ∧ Full g ∧ Digits g ∧ ¬ HasDuplicate g :=
  ⟨fun h => ⟨h.1, h.full, h.digits, h.no_duplicate⟩,
    fun h => solved_of_valid h.1 h.2.1 h.2.2.1 h.2.2.2⟩

/-! ## Backtracking search -/

theorem SameUnit.symm {r c r' c' : Nat} (h : SameUnit r c r' c') : SameUnit r' c' r c := by
  rcases h with e | e | ⟨e1, e2⟩
  · exact Or.inl e.symm
  · exact Or.inr (Or.inl e.symm)
  · exact Or.inr (Or.inr ⟨e1.symm, e2.symm⟩)

theorem setCell_clear_eq {g : Grid} (h : Is9x9 g) {r c : Nat} (hr : r < 9) (hc : c < 9)
    (hz : cellAt g r c = 0) (v : Nat) : setCell (setCell g r c v) r c UNASSIGNED = g := by
  have := setCell_restore h hr hc v
  rw [hz] at this
  exact this

theorem noDuplicate_setCell {g : Grid} (h : Is9x9 g) {r c : Nat} (hr : r < 9) (hc : c < 9)
    (hz : cellAt g r c = 0) (hdup : ¬ HasDuplicate g) {v : Nat}
    (hs : isSafe g r c v = true) : ¬ HasDuplicate (setCell g r c v) := by
  rw [isSafe_iff_sameUnit h hr hc] at hs
  obtain ⟨hv, hs⟩ := hs
  rintro ⟨a, b, a', b', ha, hb, ha', hb', hne, hu, hnz, heq⟩
  rw [cellAt_setCell h hr hc] at hnz
  rw [cellAt_setCell h hr hc, cellAt_setCell h hr hc] at heq
  by_cases e1 : a = r ∧ b = c
  · obtain ⟨rfl, rfl⟩ := e1
    have e2 : ¬ (a' = a ∧ b' = b) := by
      rintro ⟨rfl, rfl⟩; rcases hne with e | e <;> exact e rfl
    simp only [and_self, if_true, if_neg e2] at heq
    exact hs a' ha' b' hb' hu heq.symm
  · rw [if_neg e1] at hnz heq
    by_cases e2 : a' = r ∧ b' = c
    · obtain ⟨rfl, rfl⟩ := e2
      simp only [and_self, if_true] at heq
      exact hs a ha b hb hu.symm heq
    · rw [if_neg e2] at heq
      exact hdup ⟨a, b, a', b', ha, hb, ha', hb', hne, hu, hnz, heq⟩

theorem digits_setCell {g : Grid} (h : Is9x9 g) {r c : Nat} (hr : r < 9) (hc : c < 9)
    (hd : Digits g) {v : Nat} (hv : v ≤ 9) : Digits (setCell g r c v) := by
  intro a ha b hb
  rw [cellAt_setCell h hr hc]
  split
  · exact hv
  · exact hd a ha b hb

theorem extends_of_setCell {g g' : Grid} (h : Is9x9 g) {r c : Nat} (hr : r < 9) (hc : c < 9)
    (hz : cellAt g r c = 0) {v : Nat} (he : Extends g' (setCell g r c v)) : Extends g' g := by
  intro a ha b hb hnz
  have e : ¬ (a = r ∧ b = c) := by
    rintro ⟨rfl, rfl⟩; exact hnz hz
  have := he a ha b hb
  rw [cellAt_setCell h hr hc, if_neg e] at this
  exact this hnz

theorem extends_setCell_of_eq {g H : Grid} (h : Is9x9 g) {r c : Nat} (hr : r < 9) (hc : c < 9)
    (he : Extends H g) : Extends H (setCell g r c (cellAt H r c)) := by
  intro a ha b hb hnz
  rw [cellAt_setCell h hr hc] at hnz ⊢
  by_cases e : a = r ∧ b = c
  · obtain ⟨rfl, rfl⟩ := e; simp
  · rw [if_neg e] at hnz ⊢
    exact he a ha b hb hnz

theorem isSafe_of_completion {g H : Grid} (h : Is9x9 g) {r c : Nat} (hr : r < 9) (hc : c < 9)
    (hz : cellAt g r c = 0) (hH : Solved H) (he : Extends H g) :
    isSafe g r c (cellAt H r c) = true := by
  rw [isSafe_iff_sameUnit h hr hc]
  refine ⟨hH.full r hr c hc, ?_⟩
  intro a ha b hb hu heq
  have hnz : cellAt g a b ≠ 0 := by rw [heq]; exact hH.full r hr c hc
  have e1 := he a ha b hb hnz
  have hne : r ≠ a ∨ c ≠ b := by
    by_contra hcon
    push_neg at hcon
    obtain ⟨rfl, rfl⟩ := hcon
    exact hnz hz
  exact hH.no_duplicate
    ⟨r, c, a, b, hr, hc, ha, hb, hne, hu, hH.full r hr c hc, by rw [e1, heq]⟩

theorem tryNumbers_post (call : Nat → Grid → Option (Bool × Grid × Nat))
    (hcall : ∀ pos g1 b g' p', Is9x9 g1 → call pos g1 = some (b, g', p') → CreatePost g1 b g')
    {r c : Nat} (hr : r < 9) (hc : c < 9) {g : Grid} (hg : Is9x9 g) (hz : cellAt g r c = 0) :
    ∀ (nums : List Nat) (pos : Nat) (b : Bool) (g' : Grid) (p' : Nat),
      tryNumbers call r c nums pos g = some (b, g', p') →
      Is9x9 g' ∧ (b = false → g' = g) ∧ (b = true → Full g' ∧ Extends g' g) ∧
      (Digits g → ¬ HasDuplicate g → (∀ x ∈ nums, x ≤ 9) →
        (b = true → Digits g' ∧ ¬ HasDuplicate g') ∧
        (b = false → ∀ H, Solved H → Extends H g → cellAt H r c ∉ nums)) := by
  intro nums
  induction nums with
  | nil =>
    intro pos b g' p' h
    simp only [tryNumbers, Option.some.injEq, Prod.mk.injEq] at h
    obtain ⟨rfl, rfl, rfl⟩ := h
    simp [hg]
  | cons num rest ih =>
    intro pos b g' p' h
    rw [tryNumbers] at h
    by_cases hs : isSafe g r c num = true
    · rw [if_pos hs] at h
      have hg1 : Is9x9 (setCell g r c num) := hg.setCell r c num
      cases hcr : call pos (setCell g r c num) with
      | none => rw [hcr] at h; simp at h
      | some res =>
        obtain ⟨b1, g1, p1⟩ := res
        have hpost := hcall pos _ b1 g1 p1 hg1 hcr
        rw [hcr] at h
        cases b1 with
        | true =>
          simp only [Option.some.injEq, Prod.mk.injEq] at h
          obtain ⟨rfl, rfl, rfl⟩ := h
          obtain ⟨q1, _, q3, q4⟩ := hpost
          refine ⟨q1, by simp, fun _ => ⟨(q3 rfl).1, extends_of_setCell hg hr hc hz (q3 rfl).2⟩, ?_⟩
          intro hd hdup hnums
          have hnum : num ≤ 9 := hnums num (List.mem_cons_self _ _)
          refine ⟨fun _ => ?_, by simp⟩
          exact (q4 (digits_setCell hg hr hc hd hnum)
            (noDuplicate_setCell hg hr hc hz hdup hs)).1 rfl
        | false =>
          simp only at h
          obtain ⟨_, q2, _, q4⟩ := hpost
          rw [q2 rfl, setCell_clear_eq hg hr hc hz] at h
          obtain ⟨r1, r2, r3, r4⟩ := ih p1 b g' p' h
          refine ⟨r1, r2, r3, ?_⟩
          intro hd hdup hnums
          have hnum : num ≤ 9 := hnums num (List.mem_cons_self _ _)
          obtain ⟨s1, s2⟩ := r4 hd hdup (fun x hx => hnums x (List.mem_cons_of_mem _ hx))
          refine ⟨s1, ?_⟩
          intro hb H hH he hmem
          rcases List.mem_cons.1 hmem with e | e
          · have := (q4 (digits_setCell hg hr hc hd hnum)
              (noDuplicate_setCell hg hr hc hz hdup hs)).2 rfl H hH
            apply this
            rw [← e]
            exact extends_setCell_of_eq hg hr hc he
          · exact s2 hb H hH he e
    · rw [if_neg hs] at h
      obtain ⟨r1, r2, r3, r4⟩ := ih pos b g' p' h
      refine ⟨r1, r2, r3, ?_⟩
      intro hd hdup hnums
      obtain ⟨s1, s2⟩ := r4 hd hdup (fun x hx => hnums x (List.mem_cons_of_mem _ hx))
      refine ⟨s1, ?_⟩
      intro hb H hH he hmem
      rcases List.mem_cons.1 hmem with e | e
      · apply hs
        rw [← e]
        exact isSafe_of_completion hg hr hc hz hH he
      · exact s2 hb H hH he e

theorem sudokuCreate_post (o : Oracle) :
    ∀ (fuel pos : Nat) (g : Grid) (b : Bool) (g' : Grid) (p' : Nat), Is9x9 g →
      sudokuCreate o fuel pos g = some (b, g', p') → CreatePost g b g' := by
  intro fuel
  induction fuel with
  | zero => intro pos g b g' p' _ h; simp [sudokuCreate] at h
  | succ fuel ih =>
    intro pos g b g' p' hg h
    rw [sudokuCreate] at h
    cases hf : findUnassignedPos g with
    | none =>
      rw [hf] at h
      simp only [Option.some.injEq, Prod.mk.injEq] at h
      obtain ⟨rfl, rfl, rfl⟩ := h
      refine ⟨hg, by simp, fun _ => ⟨findUnassignedPos_none hf, fun _ _ _ _ _ => rfl⟩, ?_⟩
      intro hd hdup
      exact ⟨fun _ => ⟨hd, hdup⟩, by simp⟩
    | some rc =>
      obtain ⟨r, c⟩ := rc
      rw [hf] at h
      simp only at h
      obtain ⟨hr, hc, hz⟩ := findUnassignedPos_some hf
      obtain ⟨r1, r2, r3, r4⟩ :=
        tryNumbers_post (sudokuCreate o fuel) (fun pos g1 b g' p' h1 h2 => ih pos g1 b g' p' h1 h2)
          hr hc hg hz _ _ b g' p' h
      refine ⟨r1, r2, r3, ?_⟩
      intro hd hdup
      obtain ⟨s1, s2⟩ := r4 hd hdup
        (fun x hx => ((mem_shuffled_NUMBERS o pos x).1 hx).2)
      refine ⟨s1, ?_⟩
      intro hb H hH he
      exact s2 hb H hH he
        ((mem_shuffled_NUMBERS o pos _).2 (hH.cell_range hr hc))

theorem tryNumbers_returns (call : Nat → Grid → Option (Bool × Grid × Nat))
    (hcall : ∀ pos g1 b g' p', Is9x9 g1 → call pos g1 = some (b, g', p') → CreatePost g1 b g')
    {r c : Nat} (hr : r < 9) (hc : c < 9) {g : Grid} (hg : Is9x9 g) (hz : cellAt g r c = 0)
    (hterm : ∀ pos v, isSafe g r c v = true → ∃ res, call pos (setCell g r c v) = some res) :
    ∀ (nums : List Nat) (pos : Nat), ∃ res, tryNumbers call r c nums pos g = some res := by
  intro nums
  induction nums with
  | nil => intro pos; exact ⟨_, rfl⟩
  | cons num rest ih =>
    intro pos
    rw [tryNumbers]
    by_cases hs : isSafe g r c num = true
    · rw [if_pos hs]
      obtain ⟨⟨b1, g1, p1⟩, hres⟩ := hterm pos num hs
      rw [hres]
      cases b1 with
      | true => exact ⟨_, rfl⟩
      | false =>
        simp only
        have hpost := hcall pos _ false g1 p1 (hg.setCell r c num) hres
        rw [hpost.2.1 rfl, setCell_clear_eq hg hr hc hz]
        exact ih p1
    · rw [if_neg hs]
      exact ih pos

theorem sudokuCreate_returns (o : Oracle) :
    ∀ (fuel pos : Nat) (g : Grid), Is9x9 g → zeroCount g < fuel →
      ∃ res, sudokuCreate o fuel pos g = some res := by
  intro fuel
  induction fuel with
  | zero => intro pos g _ h; omega
  | succ fuel ih =>
    intro pos g hg hlt
    rw [sudokuCreate]
    cases hf : findUnassignedPos g with
    | none => exact ⟨_, rfl⟩
    | some rc =>
      obtain ⟨r, c⟩ := rc
      simp only
      obtain ⟨hr, hc, hz⟩ := findUnassignedPos_some hf
      apply tryNumbers_returns (sudokuCreate o fuel)
        (fun pos g1 b g' p' h1 h2 => sudokuCreate_post o fuel pos g1 b g' p' h1 h2) hr hc hg hz
      intro pos1 v hs
      have hv : v ≠ 0 := ((isSafe_iff_sameUnit hg hr hc v).1 hs).1
      have := zeroCount_setCell_fill hg hr hc hz hv
      exact ih pos1 _ (hg.setCell r c v) (by omega)

theorem tryNumbers_false_exhausted (call : Nat → Grid → Option (Bool × Grid × Nat))
    (hcall : ∀ pos g1 b g' p', Is9x9 g1 → call pos g1 = some (b, g', p') → CreatePost g1 b g')
    {r c : Nat} (hr : r < 9) (hc : c < 9) {g : Grid} (hg : Is9x9 g) (hz : cellAt g r c = 0) :
    ∀ (nums : List Nat) (pos : Nat) (g' : Grid) (p' : Nat),
      tryNumbers call r c nums pos g = some (false, g', p') →
      ∀ num ∈ nums, isSafe g r c num = false ∨
        ∃ p1 p2, call p1 (setCell g r c num) = some (false, setCell g r c num, p2) := by
  intro nums
  induction nums with
  | nil => intro pos g' p' _ num hnum; simp at hnum
  | cons x rest ih =>
    intro pos g' p' h num hnum
    rw [tryNumbers] at h
    by_cases hs : isSafe g r c x = true
    · rw [if_pos hs] at h
      cases hcr : call pos (setCell g r c x) with
      | none => rw [hcr] at h; simp at h
      | some res =>
        obtain ⟨b1, g1, p1⟩ := res
        have hpost := hcall pos _ b1 g1 p1 (hg.setCell r c x) hcr
        rw [hcr] at h
        cases b1 with
        | true => simp at h
        | false =>
          simp only at h
          have e := hpost.2.1 rfl
          subst e
          rw [setCell_clear_eq hg hr hc hz] at h
          rcases List.mem_cons.1 hnum with e | e
          · subst e; exact Or.inr ⟨pos, p1, hcr⟩
          · exact ih p1 g' p' h num e
    · rw [if_neg hs] at h
      rcases List.mem_cons.1 hnum with e | e
      · subst e; left; simpa using hs
      · exact ih pos g' p' h num e

theorem sudokuCreate_false_exhausted (o : Oracle) {fuel pos : Nat} {g g' : Grid} {p' : Nat}
    (hg : Is9x9 g) (h : sudokuCreate o (fuel + 1) pos g = some (false, g', p')) :
    ∃ r c, findUnassignedPos g = some (r, c) ∧
      ∀ num, 1 ≤ num → num ≤ 9 → isSafe g r c num = false ∨
        ∃ p1 p2, sudokuCreate o fuel p1 (setCell g r c num) =
          some (false, setCell g r c num, p2) := by
  rw [sudokuCreate] at h
  cases hf : findUnassignedPos g with
  | none => rw [hf] at h; simp at h
  | some rc =>
    obtain ⟨r, c⟩ := rc
    rw [hf] at h
    simp only at h
    obtain ⟨hr, hc, hz⟩ := findUnassignedPos_some hf
    refine ⟨r, c, rfl, ?_⟩
    intro num h1 h9
    exact tryNumbers_false_exhausted (sudokuCreate o fuel)
      (fun pos g1 b g' p' h1 h2 => sudokuCreate_post o fuel pos g1 b g' p' h1 h2)
      hr hc hg hz _ _ g' p' h num ((mem_shuffled_NUMBERS o pos num).2 ⟨h1, h9⟩)

theorem newGrid_digits : Digits (newGrid GRID_SIZE) := by
  intro r _ c _; rw [cellAt_newGrid]; omega

theorem newGrid_noDuplicate : ¬ HasDuplicate (newGrid GRID_SIZE) := by
  rintro ⟨r, c, _, _, _, _, _, _, _, _, hnz, _⟩
  exact hnz (cellAt_newGrid r c)

theorem zeroCount_le (g : Grid) : zeroCount g ≤ 81 := by
  have := zeroCount_add_filledCount g; omega

/-! ## Removing cells -/

theorem removeLoop_post (o : Oracle) :
    ∀ (fuel pos : Nat) (res : Grid) (attempts : Int) (q : Grid) (p' : Nat), Is9x9 res →
      removeLoop o fuel pos res attempts = some (q, p') →
      Is9x9 q ∧ (∀ r c, cellAt q r c = 0 ∨ cellAt q r c = cellAt res r c) ∧
        (zeroCount q : Int) = zeroCount res + max attempts 0 := by
  intro fuel
  induction fuel with
  | zero => intro pos res attempts q p' _ h; simp [removeLoop] at h
  | succ fuel ih =>
    intro pos res attempts q p' hres h
    rw [removeLoop] at h
    by_cases ha : attempts > 0
    · rw [if_pos ha] at h
      have hr : o pos % GRID_SIZE < 9 := Nat.mod_lt _ (by decide)
      have hc : o (pos + 1) % GRID_SIZE < 9 := Nat.mod_lt _ (by decide)
      by_cases hv : cellAt res (o pos % GRID_SIZE) (o (pos + 1) % GRID_SIZE) = 0
      · have hb : (cellAt res (o pos % GRID_SIZE) (o (pos + 1) % GRID_SIZE) != UNASSIGNED)
            = false := by simp [UNASSIGNED, hv]
        rw [hb] at h
        simp only [Bool.false_eq_true, if_false] at h
        exact ih _ _ _ _ _ hres h
      · have hb : (cellAt res (o pos % GRID_SIZE) (o (pos + 1) % GRID_SIZE) != UNASSIGNED)
            = true := by simpa [UNASSIGNED] using hv
        rw [hb] at h
        simp only [if_true] at h
        obtain ⟨q1, q2, q3⟩ := ih _ _ _ _ _ (hres.setCell _ _ _) h
        refine ⟨q1, ?_, ?_⟩
        · intro r c
          rcases q2 r c with e | e
          · exact Or.inl e
          · rw [cellAt_setCell hres hr hc] at e
            split at e
            · exact Or.inl e
            · exact Or.inr e
        · have := zeroCount_setCell_zero hres hr hc hv
          rw [UNASSIGNED, this] at q3
          rw [q3]
          push_cast
          omega
    · rw [if_neg ha] at h
      simp only [Option.some.injEq, Prod.mk.injEq] at h
      obtain ⟨rfl, rfl⟩ := h
      refine ⟨hres, fun _ _ => Or.inr rfl, ?_⟩
      omega

theorem removeCells_post (o : Oracle) {fuel pos : Nat} {g : Grid} {level : Int} {q : Grid}
    {p' : Nat} (hg : Is9x9 g) (h : removeCells o fuel pos g level = some (q, p')) :
    Is9x9 q ∧ (∀ r c, cellAt q r c = 0 ∨ cellAt q r c = cellAt g r c) ∧
      (zeroCount q : Int) = zeroCount g + max level 0 := by
  unfold removeCells at h
  rw [deepCopy_eq] at h
  exact removeLoop_post o fuel pos g level q p' hg h

theorem removeCells_none_of_gt (o : Oracle) (fuel pos : Nat) {g : Grid} {level : Int}
    (hg : Is9x9 g) (hlevel : (filledCount g : Int) < level) :
    removeCells o fuel pos g level = none := by
  cases h : removeCells o fuel pos g level with
  | none => rfl
  | some res =>
    obtain ⟨q, p'⟩ := res
    have h3 := (removeCells_post o hg h).2.2
    have h1 := zeroCount_add_filledCount g
    have h2 := zeroCount_le q
    omega

theorem eq_newGrid_of_zeroCount {g : Grid} (hg : Is9x9 g) (h : zeroCount g = 81) :
    g = newGrid GRID_SIZE := by
  apply grid_ext hg newGrid_is9x9
  intro r hr c hc
  rw [cellAt_newGrid]
  by_contra hne
  have hsub : positions.filter (fun p => cellAt g p.1 p.2 = 0) ⊆ positions.erase (r, c) := by
    intro p hp
    rw [Finset.mem_filter] at hp
    rw [Finset.mem_erase]
    refine ⟨?_, hp.1⟩
    rintro rfl
    exact hne hp.2
  have hcard := Finset.card_le_card hsub
  rw [Finset.card_erase_of_mem (mem_positions.2 ⟨hr, hc⟩)] at hcard
  unfold zeroCount at h
  rw [h] at hcard
  have : positions.card = 81 := rfl
  omega

/-! ## Facts about the sample data and about `sudokuGen` -/

theorem solvedExample_solved : Solved solvedExample :=
  solved_of_valid (by decide) (by decide) (by decide)
    ((sudokuCheck_true_iff (by decide)).1 (by decide))

theorem extends_newGrid (H : Grid) : Extends H (newGrid GRID_SIZE) := by
  intro r _ c _ hnz
  exact absurd (cellAt_newGrid r c) hnz

theorem sudokuCreate_newGrid (o : Oracle) {fuel pos : Nat} {b : Bool} {g : Grid} {p' : Nat}
    (h : sudokuCreate o fuel pos (newGrid GRID_SIZE) = some (b, g, p')) :
    b = true ∧ Solved g := by
  obtain ⟨q1, _, q3, q4⟩ := sudokuCreate_post o fuel pos _ b g p' newGrid_is9x9 h
  obtain ⟨s1, s2⟩ := q4 newGrid_digits newGrid_noDuplicate
  cases b with
  | false => exact absurd (extends_newGrid _) (s2 rfl solvedExample solvedExample_solved)
  | true => exact ⟨rfl, solved_of_valid q1 (q3 rfl).1 (s1 rfl).1 (s1 rfl).2⟩

theorem sudokuGen_inv (o : Oracle) {fuel : Nat} {level : Int} {p : Puzzle}
    (h : sudokuGen o fuel level = some (some p)) :
    ∃ pos pos', sudokuCreate o fuel 0 (newGrid GRID_SIZE) = some (true, p.original, pos) ∧
      removeCells o fuel pos p.original level = some (p.question, pos') := by
  unfold sudokuGen at h
  cases hc : sudokuCreate o fuel 0 (newGrid GRID_SIZE) with
  | none => rw [hc] at h; simp at h
  | some res =>
    obtain ⟨b, g, pos⟩ := res
    rw [hc] at h
    cases b with
    | false => simp at h
    | true =>
      simp only at h
      cases hr : removeCells o fuel pos g level with
      | none => rw [hr] at h; simp at h
      | some res2 =>
        obtain ⟨q, pos'⟩ := res2
        rw [hr] at h
        simp only [Option.some.injEq] at h
        subst h
        simp only [deepCopy_eq]
        exact ⟨pos, pos', rfl, hr⟩

theorem filledCount_of_full {g : Grid} (h : Full g) : filledCount g = 81 := by
  have h1 := (zeroCount_eq_zero_iff g).2 h
  have h2 := zeroCount_add_filledCount g
  omega

set_option maxRecDepth 100000 in
theorem sampleRun : sudokuGen sampleOracle 100 40 = some (some samplePuzzle) := by decide!

/-! ## First positions in row-major order -/

theorem findSome?_range_first {β : Type} (f : Nat → Option β) :
    ∀ (n : Nat) (b : β), (List.range n).findSome? f = some b →
      ∃ i, i < n ∧ f i = some b ∧ ∀ j, j < i → f j = none := by
  intro n
  induction n with
  | zero => intro b h; simp at h
  | succ n ih =>
    intro b h
    rw [List.range_succ, List.findSome?_append] at h
    cases hn : (List.range n).findSome? f with
    | some x =>
      rw [hn] at h
      simp only [Option.or_some, Option.some.injEq] at h
      subst h
      obtain ⟨i, hi, h1, h2⟩ := ih x hn
      exact ⟨i, by omega, h1, h2⟩
    | none =>
      rw [hn] at h
      simp only [Option.none_or] at h
      rw [List.findSome?_eq_none_iff] at hn
      refine ⟨n, by omega, ?_, fun j hj => hn j (List.mem_range.2 hj)⟩
      cases hf : f n with
      | none => simp [List.findSome?, hf] at h
      | some y => simpa [List.findSome?, hf] using h

theorem findUnassignedPos_first {g : Grid} {r c : Nat}
    (h : findUnassignedPos g = some (r, c)) :
    ∀ a b, a < 9 → b < 9 → Before a b r c → cellAt g a b ≠ 0 := by
  unfold findUnassignedPos GRID_SIZE UNASSIGNED at h
  obtain ⟨r', _, h1, h2⟩ := findSome?_range_first _ 9 (r, c) h
  obtain ⟨c', _, h3, h4⟩ := findSome?_range_first _ 9 (r, c) h1
  have e : r' = r ∧ c' = c := by
    split at h3
    · simpa using h3
    · simp at h3
  obtain ⟨rfl, rfl⟩ := e
  intro a b ha hb hbef hz
  rcases hbef with hlt | ⟨rfl, hlt⟩
  · have := h2 a hlt
    rw [List.findSome?_eq_none_iff] at this
    have := this b (List.mem_range.2 hb)
    simp [hz] at this
  · have := h4 b hlt
    simp [hz] at this

theorem findUnassignedPos_eq_none_iff (g : Grid) : findUnassignedPos g = none ↔ Full g := by
  constructor
  · exact findUnassignedPos_none
  · intro hfull
    unfold findUnassignedPos GRID_SIZE UNASSIGNED
    rw [List.findSome?_eq_none_iff]
    intro r hr
    rw [List.findSome?_eq_none_iff]
    intro c hc
    have := hfull r (List.mem_range.1 hr) c (List.mem_range.1 hc)
    simp [this]

theorem conflicting_iff {g : Grid} (h : Is9x9 g) {r c : Nat} (hr : r < 9) (hc : c < 9) :
    Conflicting g r c ↔
      cellAt g r c ≠ 0 ∧ isSafe (setCell g r c 0) r c (cellAt g r c) = false := by
  unfold Conflicting
  constructor
  · rintro ⟨hv, r', c', hr', hc', hne, hu, heq⟩
    refine ⟨hv, ?_⟩
    cases hs : isSafe (setCell g r c 0) r c (cellAt g r c) with
    | false => rfl
    | true =>
      exact absurd heq.symm ((isSafe_cleared_iff h hr hc hv).1 hs r' hr' c' hc' hne hu)
  · rintro ⟨hv, hs⟩
    refine ⟨hv, ?_⟩
    by_contra hcon
    have : isSafe (setCell g r c 0) r c (cellAt g r c) = true := by
      rw [isSafe_cleared_iff h hr hc hv]
      intro r' hr' c' hc' hne hu heq
      exact hcon ⟨r', c', hr', hc', hne, hu, heq.symm⟩
    rw [hs] at this
    exact Bool.false_ne_true this

theorem checkCells_false {g : Grid} (h : Is9x9 g) :
    ∀ ps : List (Nat × Nat), (∀ p ∈ ps, p.1 < 9 ∧ p.2 < 9) →
      (checkCells ps g).1 = false →
      ∃ pre p post, ps = pre ++ p :: post ∧ (∀ q ∈ pre, ¬ Conflicting g q.1 q.2) ∧
        Conflicting g p.1 p.2 ∧ (checkCells ps g).2 = setCell g p.1 p.2 0 := by
  intro ps
  induction ps with
  | nil => intro _ hf; simp [checkCells] at hf
  | cons p rest ih =>
    intro hps hf
    obtain ⟨r, c⟩ := p
    have hrc := hps (r, c) (List.mem_cons_self _ _)
    have ih' := ih (fun q hq => hps q (List.mem_cons_of_mem _ hq))
    have hconf := conflicting_iff h hrc.1 hrc.2
    unfold checkCells at hf ⊢
    simp only [UNASSIGNED] at hf ⊢
    by_cases hv : cellAt g r c = 0
    · simp only [hv, bne_self_eq_false, Bool.false_eq_true, if_false] at hf ⊢
      obtain ⟨pre, p, post, e1, e2, e3, e4⟩ := ih' hf
      refine ⟨(r, c) :: pre, p, post, by rw [e1]; rfl, ?_, e3, e4⟩
      intro q hq
      rcases List.mem_cons.1 hq with e | e
      · subst e; exact fun hc => hc.1 hv
      · exact e2 q e
    · have hb : (cellAt g r c != 0) = true := by simpa using hv
      rw [if_pos hb] at hf ⊢
      by_cases hs : isSafe (setCell g r c 0) r c (cellAt g r c) = true
      · simp only [hs, Bool.not_true, Bool.false_eq_true, if_false] at hf ⊢
        rw [setCell_restore h hrc.1 hrc.2] at hf ⊢
        obtain ⟨pre, p, post, e1, e2, e3, e4⟩ := ih' hf
        refine ⟨(r, c) :: pre, p, post, by rw [e1]; rfl, ?_, e3, e4⟩
        intro q hq
        rcases List.mem_cons.1 hq with e | e
        · subst e
          intro hc
          have := (hconf.1 hc).2
          rw [hs] at this
          exact Bool.noConfusion this
        · exact e2 q e
      · simp only [Bool.not_eq_true] at hs
        refine ⟨[], (r, c), rest, rfl, by simp, hconf.2 ⟨hv, hs⟩, ?_⟩
        simp [hs]

set_option maxRecDepth 100000 in
theorem scanOrder_pairwise :
    scanOrder.Pairwise (fun p q => Before p.1 p.2 q.1 q.2) := by decide!

theorem mem_pre_of_before {pre post : List (Nat × Nat)} {p : Nat × Nat}
    (hsplit : scanOrder = pre ++ p :: post) {a b : Nat} (ha : a < 9) (hb : b < 9)
    (hbef : Before a b p.1 p.2) : (a, b) ∈ pre := by
  have hmem : (a, b) ∈ scanOrder := mem_scanOrder.2 ⟨ha, hb⟩
  have hpw := scanOrder_pairwise
  rw [hsplit] at hmem hpw
  rw [List.pairwise_append, List.pairwise_cons] at hpw
  rcases List.mem_append.1 hmem with h1 | h1
  · exact h1
  · exfalso
    unfold Before at hbef
    rcases List.mem_cons.1 h1 with e | e
    · subst e
      simp only at hbef
      omega
    · have := hpw.2.1.1 (a, b) e
      unfold Before at this
      simp only at this
      omega

theorem tryNumbers_congr (call call' : Nat → Grid → Option (Bool × Grid × Nat))
    (hcall : ∀ pos g1 b g' p', Is9x9 g1 → call pos g1 = some (b, g', p') → CreatePost g1 b g')
    {r c : Nat} (hr : r < 9) (hc : c < 9) {g : Grid} (hg : Is9x9 g) (hz : cellAt g r c = 0)
    (hagree : ∀ p num, isSafe g r c num = true →
      call' p (setCell g r c num) = call p (setCell g r c num)) :
    ∀ (nums : List Nat) (pos : Nat),
      tryNumbers call' r c nums pos g = tryNumbers call r c nums pos g := by
  intro nums
  induction nums with
  | nil => intro pos; rfl
  | cons num rest ih =>
    intro pos
    rw [tryNumbers, tryNumbers]
    by_cases hs : isSafe g r c num = true
    · rw [if_pos hs, if_pos hs, hagree pos num hs]
      cases hcr : call pos (setCell g r c num) with
      | none => rfl
      | some res =>
        obtain ⟨b1, g1, p1⟩ := res
        cases b1 with
        | true => rfl
        | false =>
          simp only
          have hpost := hcall pos _ false g1 p1 (hg.setCell r c num) hcr
          rw [hpost.2.1 rfl, setCell_clear_eq hg hr hc hz]
          exact ih p1
    · rw [if_neg hs, if_neg hs]
      exact ih pos

set_option maxRecDepth 100000 in
theorem nearMissRun : sudokuCreate sampleOracle 2 0 nearMiss = some (false, nearMiss, 16) := by
  decide!

set_option maxRecDepth 100000 in
theorem questionRun :
    sudokuCreate sampleOracle 100 0 samplePuzzle.question = some (true, solvedExample, 320) := by
  decide!

/-! ## Termination of the removal loop -/

theorem tryNumbers_mono (call call' : Nat → Grid → Option (Bool × Grid × Nat))
    (hmono : ∀ pos g x, call pos g = some x → call' pos g = some x) (r c : Nat) :
    ∀ (nums : List Nat) (pos : Nat) (g : Grid) (x : Bool × Grid × Nat),
      tryNumbers call r c nums pos g = some x → tryNumbers call' r c nums pos g = some x := by
  intro nums
  induction nums with
  | nil => intro pos g x h; exact h
  | cons num rest ih =>
    intro pos g x h
    rw [tryNumbers] at h ⊢
    by_cases hs : isSafe g r c num = true
    · rw [if_pos hs] at h ⊢
      cases hcr : call pos (setCell g r c num) with
      | none => rw [hcr] at h; simp at h
      | some res =>
        obtain ⟨b1, g1, p1⟩ := res
        rw [hcr] at h
        rw [hmono _ _ _ hcr]
        cases b1 with
        | true => exact h
        | false => exact ih _ _ _ h
    · rw [if_neg hs] at h ⊢
      exact ih _ _ _ h

theorem sudokuCreate_mono_succ (o : Oracle) :
    ∀ (fuel pos : Nat) (g : Grid) (x : Bool × Grid × Nat),
      sudokuCreate o fuel pos g = some x → sudokuCreate o (fuel + 1) pos g = some x := by
  intro fuel
  induction fuel with
  | zero => intro pos g x h; simp [sudokuCreate] at h
  | succ fuel ih =>
    intro pos g x h
    rw [sudokuCreate] at h ⊢
    cases hf : findUnassignedPos g with
    | none => rw [hf] at h; exact h
    | some rc =>
      obtain ⟨r, c⟩ := rc
      rw [hf] at h
      simp only at h ⊢
      exact tryNumbers_mono _ _ (fun pos g x hx => ih pos g x hx) r c _ _ _ _ h

theorem sudokuCreate_mono (o : Oracle) {fuel fuel' pos : Nat} {g : Grid}
    {x : Bool × Grid × Nat} (hle : fuel ≤ fuel') (h : sudokuCreate o fuel pos g = some x) :
    sudokuCreate o fuel' pos g = some x := by
  induction hle with
  | refl => exact h
  | step _ ih => exact sudokuCreate_mono_succ o _ pos g x ih

theorem filledCount_setCell_zero {g : Grid} (h : Is9x9 g) {r c : Nat} (hr : r < 9)
    (hc : c < 9) (hv : cellAt g r c ≠ 0) :
    filledCount (setCell g r c 0) + 1 = filledCount g := by
  have h1 := zeroCount_setCell_zero h hr hc hv
  have h2 := zeroCount_add_filledCount g
  have h3 := zeroCount_add_filledCount (setCell g r c 0)
  omega

theorem exists_filled_of_pos {g : Grid} (h : 0 < filledCount g) :
    ∃ r c, r < 9 ∧ c < 9 ∧ cellAt g r c ≠ 0 := by
  unfold filledCount at h
  obtain ⟨p, hp⟩ := Finset.card_pos.1 h
  rw [Finset.mem_filter] at hp
  exact ⟨p.1, p.2, (mem_positions.1 hp.1).1, (mem_positions.1 hp.1).2, hp.2⟩

theorem FairFrom.shift {o : Oracle} {pos : Nat} (h : FairFrom o pos) (j : Nat) :
    FairFrom o (pos + 2 * j) := by
  intro n r c hr hc
  obtain ⟨m, hm, h1, h2⟩ := h (n + j) r c hr hc
  refine ⟨m - j, by omega, ?_, ?_⟩
  · have : pos + 2 * j + 2 * (m - j) = pos + 2 * m := by omega
    rw [this]; exact h1
  · have : pos + 2 * j + 2 * (m - j) + 1 = pos + 2 * m + 1 := by omega
    rw [this]; exact h2

theorem removeLoop_skip (o : Oracle) :
    ∀ (j pos : Nat) (res : Grid) (attempts : Int), 0 < attempts →
      (∀ i, i < j →
        cellAt res (o (pos + 2 * i) % GRID_SIZE) (o (pos + 2 * i + 1) % GRID_SIZE) = 0) →
      ∀ fuel, removeLoop o (fuel + j) pos res attempts =
        removeLoop o fuel (pos + 2 * j) res attempts := by
  intro j
  induction j with
  | zero => intro pos res attempts _ _ fuel; rfl
  | succ j ih =>
    intro pos res attempts ha hz fuel
    show removeLoop o ((fuel + j) + 1) pos res attempts = _
    rw [removeLoop]
    have h0 := hz 0 (Nat.succ_pos j)
    simp only [Nat.mul_zero, Nat.add_zero] at h0
    have hb : (cellAt res (o pos % GRID_SIZE) (o (pos + 1) % GRID_SIZE) != UNASSIGNED)
        = false := by simp [UNASSIGNED, h0]
    rw [if_pos ha, hb]
    simp only [Bool.false_eq_true, if_false]
    rw [ih (pos + 2) res attempts ha ?_ fuel]
    · have : pos + 2 + 2 * j = pos + 2 * (j + 1) := by omega
      rw [this]
    · intro i hi
      have := hz (i + 1) (by omega)
      have e1 : pos + 2 + 2 * i = pos + 2 * (i + 1) := by omega
      rw [e1]; exact this

theorem removeLoop_returns (o : Oracle) :
    ∀ (k pos : Nat) (res : Grid), Is9x9 res → FairFrom o pos → k ≤ filledCount res →
      ∃ N q p', ∀ fuel, N ≤ fuel → removeLoop o fuel pos res (k : Int) = some (q, p') := by
  intro k
  induction k with
  | zero =>
    intro pos res _ _ _
    refine ⟨1, res, pos, ?_⟩
    intro fuel hfuel
    obtain ⟨f, rfl⟩ : ∃ f, fuel = f + 1 := ⟨fuel - 1, by omega⟩
    rw [removeLoop]
    simp
  | succ k ih =>
    intro pos res hres hfair hk
    obtain ⟨r, c, hr, hc, hnz⟩ := exists_filled_of_pos (g := res) (by omega)
    have hex : ∃ m,
        cellAt res (o (pos + 2 * m) % GRID_SIZE) (o (pos + 2 * m + 1) % GRID_SIZE) ≠ 0 := by
      obtain ⟨m, _, h1, h2⟩ := hfair 0 r c hr hc
      exact ⟨m, by rw [h1, h2]; exact hnz⟩
    have hspec := Nat.find_spec hex
    have hmin : ∀ i, i < Nat.find hex →
        cellAt res (o (pos + 2 * i) % GRID_SIZE) (o (pos + 2 * i + 1) % GRID_SIZE) = 0 :=
      fun i hi => not_not.1 (Nat.find_min hex hi)
    generalize Nat.find hex = j at hspec hmin
    have hr0 : o (pos + 2 * j) % GRID_SIZE < 9 := Nat.mod_lt _ (by decide)
    have hc0 : o (pos + 2 * j + 1) % GRID_SIZE < 9 := Nat.mod_lt _ (by decide)
    have hcount := filledCount_setCell_zero hres hr0 hc0 hspec
    obtain ⟨N, q, p', hN⟩ := ih (pos + 2 * (j + 1))
      (setCell res (o (pos + 2 * j) % GRID_SIZE) (o (pos + 2 * j + 1) % GRID_SIZE) 0)
      (hres.setCell _ _ _) (hfair.shift (j + 1)) (by omega)
    refine ⟨N + 1 + j, q, p', ?_⟩
    intro fuel hfuel
    obtain ⟨f, rfl, hf⟩ : ∃ f, fuel = (f + 1) + j ∧ N ≤ f := ⟨fuel - 1 - j, by omega, by omega⟩
    have hpos : (0 : Int) < ((k + 1 : Nat) : Int) := by push_cast; omega
    rw [removeLoop_skip o j pos res _ hpos hmin (f + 1), removeLoop]
    have hb : (cellAt res (o (pos + 2 * j) % GRID_SIZE) (o (pos + 2 * j + 1) % GRID_SIZE)
        != UNASSIGNED) = true := by simpa [UNASSIGNED] using hspec
    rw [if_pos hpos, hb]
    simp only [if_true]
    have e1 : pos + 2 * j + 2 = pos + 2 * (j + 1) := by omega
    have e2 : ((k + 1 : Nat) : Int) - 1 = (k : Int) := by push_cast; omega
    rw [e1, e2]
    exact hN f hf

theorem removeCells_returns (o : Oracle) (pos : Nat) {g : Grid} {level : Int} (hg : Is9x9 g)
    (hfair : FairFrom o pos) (hlevel : level ≤ filledCount g) :
    ∃ N q p', ∀ fuel, N ≤ fuel → removeCells o fuel pos g level = some (q, p') := by
  unfold removeCells
  rw [deepCopy_eq]
  by_cases h0 : 0 < level
  · obtain ⟨k, rfl⟩ : ∃ k : Nat, level = (k : Int) := ⟨level.toNat, by omega⟩
    exact removeLoop_returns o k pos g hg hfair (by exact_mod_cast hlevel)
  · refine ⟨1, g, pos, ?_⟩
    intro fuel hfuel
    obtain ⟨f, rfl⟩ : ∃ f, fuel = f + 1 := ⟨fuel - 1, by omega⟩
    rw [removeLoop]
    have : ¬ level > 0 := h0
    rw [if_neg this]

theorem removeLoop_stuck (o : Oracle) (hconst : ∀ n, o n % GRID_SIZE = 0) :
    ∀ (fuel pos : Nat) (res : Grid) (attempts : Int), 0 < attempts → cellAt res 0 0 = 0 →
      removeLoop o fuel pos res attempts = none := by
  intro fuel
  induction fuel with
  | zero => intro pos res attempts _ _; rfl
  | succ fuel ih =>
    intro pos res attempts ha hz
    rw [removeLoop, if_pos ha, hconst, hconst]
    have hb : (cellAt res 0 0 != UNASSIGNED) = false := by simp [UNASSIGNED, hz]
    rw [hb]
    simp only [Bool.false_eq_true, if_false]
    exact ih _ _ _ ha hz

theorem removeCells_stuck (o : Oracle) (hconst : ∀ n, o n % GRID_SIZE = 0) (fuel pos : Nat)
    {g : Grid} (hg : Is9x9 g) {level : Int} (hlevel : 1 < level) :
    removeCells o fuel pos g level = none := by
  unfold removeCells
  rw [deepCopy_eq]
  cases fuel with
  | zero => rfl
  | succ fuel =>
    rw [removeLoop, if_pos (by omega), hconst, hconst]
    by_cases hz : cellAt g 0 0 = 0
    · have hb : (cellAt g 0 0 != UNASSIGNED) = false := by simp [UNASSIGNED, hz]
      rw [hb]
      simp only [Bool.false_eq_true, if_false]
      exact removeLoop_stuck o hconst _ _ _ _ (by omega) hz
    · have hb : (cellAt g 0 0 != UNASSIGNED) = true := by simpa [UNASSIGNED] using hz
      rw [hb]
      simp only [if_true]
      exact removeLoop_stuck o hconst _ _ _ _ (by omega)
        (cellAt_setCell_same hg (by decide) (by decide) _)

theorem sampleOracle_even (k : Nat) : sampleOracle (648 + 2 * k) = k / 9 := by
  unfold sampleOracle
  rw [if_neg (by omega), if_pos (by omega)]
  omega

theorem sampleOracle_odd (k : Nat) : sampleOracle (648 + 2 * k + 1) = k % 9 := by
  unfold sampleOracle
  rw [if_neg (by omega), if_neg (by omega)]
  omega

theorem sampleOracle_fair : ∀ pos, FairFrom sampleOracle pos := by
  intro pos n r c hr hc
  unfold GRID_SIZE
  by_cases hpar : pos % 2 = 0
  · obtain ⟨k, hk⟩ : ∃ k, k = 81 * (n + pos) + 9 * r + c := ⟨_, rfl⟩
    have h1 : k / 9 = 9 * (n + pos) + r := by omega
    have h2 : k % 9 = c := by omega
    refine ⟨324 + k - pos / 2, by omega, ?_, ?_⟩
    · have e : pos + 2 * (324 + k - pos / 2) = 648 + 2 * k := by omega
      rw [e, sampleOracle_even, h1]
      clear e hk h1 h2 hpar
      omega
    · have e : pos + 2 * (324 + k - pos / 2) + 1 = 648 + 2 * k + 1 := by omega
      rw [e, sampleOracle_odd, h2]
      exact Nat.mod_eq_of_lt hc
  · obtain ⟨c', hc', hcc⟩ : ∃ c', c' < 9 ∧ (9 * c' + r + 1) / 9 % 9 = c := by
      by_cases h8 : r < 8
      · exact ⟨c, hc, by omega⟩
      · by_cases h0 : c = 0
        · exact ⟨8, by omega, by omega⟩
        · exact ⟨c - 1, by omega, by omega⟩
    obtain ⟨k, hk⟩ : ∃ k, k = 81 * (n + pos) + 9 * c' + r := ⟨_, rfl⟩
    have h1 : k % 9 = r := by omega
    have h2 : (k + 1) / 9 = 9 * (n + pos) + (9 * c' + r + 1) / 9 := by omega
    refine ⟨324 + k - pos / 2, by omega, ?_, ?_⟩
    · have e : pos + 2 * (324 + k - pos / 2) = 648 + 2 * k + 1 := by omega
      rw [e, sampleOracle_odd, h1]
      exact Nat.mod_eq_of_lt hr
    · have e : pos + 2 * (324 + k - pos / 2) + 1 = 648 + 2 * (k + 1) := by omega
      rw [e, sampleOracle_even, h2]
      clear e hk h1 h2 hpar
      omega

/-! ## The claims -/

/-- C1: whatever the difficulty and the outcome of the random draws, whenever
`sudokuGen` returns a puzzle its `original` is a 9x9 grid in which every row,
every column and each of the nine 3x3 boxes contains each digit 1..9 exactly
once. -/
theorem sudokuGen_original_solved (o : Oracle) (fuel : Nat) (level : Int) (p : Puzzle)
    (h : sudokuGen o fuel level = some (some p)) : Solved p.original := by
  obtain ⟨pos, _, hc, _⟩ := sudokuGen_inv o h
  exact (sudokuCreate_newGrid o hc).2

/-- Witness of C1: the run of `sudokuGen` at difficulty 40 under
`sampleOracle`. -/
theorem sudokuGen_original_solved_witness :
    sudokuGen sampleOracle 100 40 = some (some samplePuzzle) ∧ Solved samplePuzzle.original :=
  ⟨sampleRun, sudokuGen_original_solved sampleOracle 100 40 samplePuzzle sampleRun⟩

/-- C2: on a 9x9 grid `sudokuCheck` returns `false` if two distinct cells of
a common row, column or 3x3 box hold the same nonzero value, and `true`
otherwise; it returns `true` on the all-zero grid. -/
theorem sudokuCheck_spec (g : Grid) (hg : Is9x9 g) :
    (HasDuplicate g → (sudokuCheck g).1 = false) ∧
    (¬ HasDuplicate g → (sudokuCheck g).1 = true) ∧
    (sudokuCheck (newGrid GRID_SIZE)).1 = true := by
  refine ⟨?_, ?_, ?_⟩
  · intro hd
    cases hb : (sudokuCheck g).1 with
    | false => rfl
    | true => exact absurd hd ((sudokuCheck_true_iff hg).1 hb)
  · exact (sudokuCheck_true_iff hg).2
  · exact (sudokuCheck_true_iff newGrid_is9x9).2 newGrid_noDuplicate

/-- Witness of C2: the grid `rowClash`. -/
theorem sudokuCheck_spec_witness :
    Is9x9 rowClash ∧
    (HasDuplicate rowClash → (sudokuCheck rowClash).1 = false) ∧
    (¬ HasDuplicate rowClash → (sudokuCheck rowClash).1 = true) ∧
    (sudokuCheck (newGrid GRID_SIZE)).1 = true :=
  ⟨by decide, sudokuCheck_spec rowClash (by decide)⟩

/-- C3: `sudokuCheck` on `rowClash` returns `false` and leaves the grid with
cell (0, 0) cleared: the input is not restored on the failing path. -/
theorem sudokuCheck_rowClash_mutates :
    sudokuCheck rowClash = (false, setCell rowClash 0 0 0) ∧
    cellAt rowClash 0 0 = 1 ∧ cellAt (sudokuCheck rowClash).2 0 0 = 0 := by
  decide

/-- C4: whatever the difficulty and the draws, `sudokuCheck` returns `true`
on the `original` of every puzzle `sudokuGen` returns. -/
theorem sudokuCheck_original (o : Oracle) (fuel : Nat) (level : Int) (p : Puzzle)
    (h : sudokuGen o fuel level = some (some p)) : (sudokuCheck p.original).1 = true := by
  obtain ⟨pos, _, hc, _⟩ := sudokuGen_inv o h
  have hs := (sudokuCreate_newGrid o hc).2
  exact (sudokuCheck_true_iff hs.1).2 hs.no_duplicate

/-- Witness of C4: the run at difficulty 40 under `sampleOracle`. -/
theorem sudokuCheck_original_witness :
    sudokuGen sampleOracle 100 40 = some (some samplePuzzle) ∧
    (sudokuCheck samplePuzzle.original).1 = true :=
  ⟨sampleRun, sudokuCheck_original sampleOracle 100 40 samplePuzzle sampleRun⟩

/-- C5: for a difficulty `0 ≤ d ≤ 81`, whenever `sudokuGen d` returns a
puzzle its `question` has exactly `d` cells equal to 0 and `81 - d` nonzero
cells. -/
theorem sudokuGen_question_count (o : Oracle) (fuel : Nat) (d : Int) (p : Puzzle)
    (h0 : 0 ≤ d) (h81 : d ≤ 81) (h : sudokuGen o fuel d = some (some p)) :
    (zeroCount p.question : Int) = d ∧ (filledCount p.question : Int) = 81 - d := by
  obtain ⟨pos, pos', hc, hr⟩ := sudokuGen_inv o h
  have hs := (sudokuCreate_newGrid o hc).2
  have h1 := (removeCells_post o hs.1 hr).2.2
  have h2 := (zeroCount_eq_zero_iff _).2 hs.full
  have h3 := zeroCount_add_filledCount p.question
  have h4 : (zeroCount p.question : Int) + filledCount p.question = 81 := by exact_mod_cast h3
  rw [h2] at h1
  constructor <;> omega

/-- Witness of C5: at difficulty 40 the question has 40 zero cells and 41
filled cells. -/
theorem sudokuGen_question_count_witness :
    sudokuGen sampleOracle 100 40 = some (some samplePuzzle) ∧
    (zeroCount samplePuzzle.question : Int) = 40 ∧
    (filledCount samplePuzzle.question : Int) = 81 - 40 :=
  ⟨sampleRun,
    sudokuGen_question_count sampleOracle 100 40 samplePuzzle (by decide) (by decide) sampleRun⟩

/-- C6: in every puzzle `sudokuGen` returns, each cell of `question` is 0 or
equal to the same cell of `original`, `original` is the grid `sudokuCreate`
left, and `question` is what `removeCells` made of that grid. -/
theorem sudokuGen_question_from_original (o : Oracle) (fuel : Nat) (level : Int) (p : Puzzle)
    (h : sudokuGen o fuel level = some (some p)) :
    (∀ r c, cellAt p.question r c = 0 ∨ cellAt p.question r c = cellAt p.original r c) ∧
    ∃ pos pos', sudokuCreate o fuel 0 (newGrid GRID_SIZE) = some (true, p.original, pos) ∧
      removeCells o fuel pos p.original level = some (p.question, pos') := by
  obtain ⟨pos, pos', hc, hr⟩ := sudokuGen_inv o h
  have hs := (sudokuCreate_newGrid o hc).2
  exact ⟨(removeCells_post o hs.1 hr).2.1, pos, pos', hc, hr⟩

/-- Witness of C6: the run at difficulty 40 under `sampleOracle`. -/
theorem sudokuGen_question_from_original_witness :
    sudokuGen sampleOracle 100 40 = some (some samplePuzzle) ∧
    (∀ r c, cellAt samplePuzzle.question r c = 0 ∨
      cellAt samplePuzzle.question r c = cellAt samplePuzzle.original r c) :=
  ⟨sampleRun,
    (sudokuGen_question_from_original sampleOracle 100 40 samplePuzzle sampleRun).1⟩

/-- C7, as stated, fails: on the completely filled grid `solvedExample` at
difficulty 82, `removeCells` returns for no amount of fuel, and neither does
`sudokuGen`; and at difficulty 81, under draws that pick cell (0, 0) every
time, `removeCells` returns for no amount of fuel either. -/
theorem removeCells_82_never_returns :
    (¬ ∃ fuel : Nat, (removeCells sampleOracle fuel 648 solvedExample 82).isSome = true) ∧
    (¬ ∃ fuel : Nat, (sudokuGen sampleOracle fuel 82).isSome = true) ∧
    (¬ ∃ fuel : Nat, (removeCells (fun _ => 0) fuel 0 solvedExample 81).isSome = true) := by
  have hfull : (filledCount solvedExample : Int) < 82 := by
    have := filledCount_of_full solvedExample_solved.full
    omega
  refine ⟨?_, ?_, ?_⟩
  · rintro ⟨fuel, h⟩
    rw [removeCells_none_of_gt sampleOracle fuel 648 solvedExample_solved.1 hfull] at h
    simp at h
  · rintro ⟨fuel, h⟩
    cases hg : sudokuGen sampleOracle fuel 82 with
    | none => rw [hg] at h; simp at h
    | some res =>
      cases res with
      | none =>
        unfold sudokuGen at hg
        cases hc : sudokuCreate sampleOracle fuel 0 (newGrid GRID_SIZE) with
        | none => rw [hc] at hg; simp at hg
        | some r3 =>
          obtain ⟨b, g, pos⟩ := r3
          have := (sudokuCreate_newGrid sampleOracle hc).1
          subst this
          rw [hc] at hg
          simp only at hg
          cases hr : removeCells sampleOracle fuel pos g 82 with
          | none => rw [hr] at hg; simp at hg
          | some r4 => rw [hr] at hg; simp at hg
      | some p =>
        obtain ⟨pos, pos', hc, hr⟩ := sudokuGen_inv sampleOracle hg
        have hs := (sudokuCreate_newGrid sampleOracle hc).2
        have hf := filledCount_of_full hs.full
        rw [removeCells_none_of_gt sampleOracle fuel pos hs.1 (by omega)] at hr
        simp at hr
  · rintro ⟨fuel, h⟩
    rw [removeCells_stuck (fun _ => 0) (fun _ => rfl) fuel 0 solvedExample_solved.1
      (by decide)] at h
    simp at h

/-- C7, amended: on a 9x9 grid, at a difficulty up to the number of nonzero
cells, and under draws that pick every cell again and again, `removeCells`
returns, with that many more zero cells; at a difficulty equal to the number
of nonzero cells (81 on a completely filled grid) the grid it returns is the
one whose 81 cells are all 0, and under such draws `sudokuGen` returns at
every difficulty up to 81, with the all-zero `question` at 81.  At a
difficulty above the number of nonzero cells `removeCells` never returns,
whatever the draws and the fuel, and `sudokuGen` never returns at a
difficulty above 81. -/
theorem removeCells_over_removal (o : Oracle) (fuel pos : Nat) (g : Grid) (hg : Is9x9 g)
    (d : Int) :
    ((filledCount g : Int) < d → removeCells o fuel pos g d = none) ∧
    (d = filledCount g → ∀ q p', removeCells o fuel pos g d = some (q, p') →
      q = newGrid GRID_SIZE) ∧
    (81 < d → sudokuGen o fuel d = none) ∧
    (FairFrom o pos → d ≤ filledCount g →
      ∃ N q p', (∀ f, N ≤ f → removeCells o f pos g d = some (q, p')) ∧
        (zeroCount q : Int) = zeroCount g + max d 0 ∧
        (d = filledCount g → q = newGrid GRID_SIZE)) ∧
    ((∀ p, FairFrom o p) → d ≤ 81 →
      ∃ N P, (∀ f, N ≤ f → sudokuGen o f d = some (some P)) ∧
        (d = 81 → P.question = newGrid GRID_SIZE)) := by
  have hall : ∀ {g1 : Grid} {f p1 : Nat} {q : Grid} {p' : Nat}, Is9x9 g1 →
      d = filledCount g1 → removeCells o f p1 g1 d = some (q, p') →
      q = newGrid GRID_SIZE := by
    intro g1 f p1 q p' hg1 hd h
    obtain ⟨q1, _, q3⟩ := removeCells_post o hg1 h
    apply eq_newGrid_of_zeroCount q1
    have := zeroCount_add_filledCount g1
    omega
  refine ⟨removeCells_none_of_gt o fuel pos hg, fun hd q p' h => hall hg hd h, ?_, ?_, ?_⟩
  · intro hd
    cases hgen : sudokuGen o fuel d with
    | none => rfl
    | some res =>
      exfalso
      cases res with
      | none =>
        unfold sudokuGen at hgen
        cases hc : sudokuCreate o fuel 0 (newGrid GRID_SIZE) with
        | none => rw [hc] at hgen; simp at hgen
        | some r3 =>
          obtain ⟨b, g1, pos1⟩ := r3
          have := (sudokuCreate_newGrid o hc).1
          subst this
          rw [hc] at hgen
          simp only at hgen
          cases hr : removeCells o fuel pos1 g1 d with
          | none => rw [hr] at hgen; simp at hgen
          | some r4 => rw [hr] at hgen; simp at hgen
      | some p =>
        obtain ⟨pos1, pos', hc, hr⟩ := sudokuGen_inv o hgen
        have hs := (sudokuCreate_newGrid o hc).2
        have hf := filledCount_of_full hs.full
        rw [removeCells_none_of_gt o fuel pos1 hs.1 (by omega)] at hr
        simp at hr
  · intro hfair hd
    obtain ⟨N, q, p', hN⟩ := removeCells_returns o pos hg hfair hd
    have hq := hN N (Nat.le_refl N)
    exact ⟨N, q, p', hN, (removeCells_post o hg hq).2.2, fun he => hall hg he hq⟩
  · intro hfair hd
    obtain ⟨⟨b, g1, pos1⟩, hc⟩ := sudokuCreate_returns o 82 0 (newGrid GRID_SIZE)
      newGrid_is9x9 (lt_of_le_of_lt (zeroCount_le _) (by decide))
    obtain ⟨rfl, hs⟩ := sudokuCreate_newGrid o hc
    have hf := filledCount_of_full hs.full
    obtain ⟨N, q, p', hN⟩ := removeCells_returns o pos1 hs.1 (hfair pos1)
      (show d ≤ filledCount g1 by omega)
    refine ⟨max 82 N, { original := deepCopy g1, question := q }, ?_, ?_⟩
    · intro f hf'
      unfold sudokuGen
      rw [sudokuCreate_mono o (le_trans (le_max_left 82 N) hf') hc]
      simp only
      rw [hN f (le_trans (le_max_right 82 N) hf')]
    · intro h81
      exact hall hs.1 (by omega) (hN N (Nat.le_refl N))

/-- Witness of C7, amended: on `solvedExample` at difficulty 81, from
position 646 on, `sampleOracle` picks cell (2, 0), then sweeps the grid and
picks (2, 0) again; `removeCells` retries there and returns the all-zero
grid. -/
theorem removeCells_over_removal_witness :
    Is9x9 solvedExample ∧ FairFrom sampleOracle 646 ∧
    removeCells sampleOracle 100 646 solvedExample 81 = some (newGrid GRID_SIZE, 810) ∧
    ∃ N q p', (∀ f, N ≤ f → removeCells sampleOracle f 646 solvedExample 81 = some (q, p')) ∧
      (zeroCount q : Int) = zeroCount solvedExample + max 81 0 ∧
      ((81 : Int) = filledCount solvedExample → q = newGrid GRID_SIZE) :=
  ⟨by decide, sampleOracle_fair 646, by decide!,
    (removeCells_over_removal sampleOracle 100 646 solvedExample (by decide) 81).2.2.2.1
      (sampleOracle_fair 646)
      (by rw [filledCount_of_full solvedExample_solved.full]; decide)⟩

/-- C8: whatever the shuffles, `sudokuCreate` on the all-zero 9x9 grid
returns `true` (with fuel above 81 it returns, and it never returns `false`),
so `sudokuGen` never returns `undefined`, and the `original` of a returned
puzzle has no unassigned cell. -/
theorem sudokuCreate_newGrid_true (o : Oracle) (fuel pos : Nat) (level : Int) :
    (81 < fuel →
      ∃ g p', sudokuCreate o fuel pos (newGrid GRID_SIZE) = some (true, g, p') ∧ Full g) ∧
    (∀ b g p', sudokuCreate o fuel pos (newGrid GRID_SIZE) = some (b, g, p') → b = true) ∧
    sudokuGen o fuel level ≠ some none ∧
    (∀ p, sudokuGen o fuel level = some (some p) → Full p.original) := by
  refine ⟨?_, ?_, ?_, ?_⟩
  · intro hf
    obtain ⟨⟨b, g, p'⟩, h⟩ := sudokuCreate_returns o fuel pos (newGrid GRID_SIZE) newGrid_is9x9
      (lt_of_le_of_lt (zeroCount_le _) hf)
    obtain ⟨rfl, hs⟩ := sudokuCreate_newGrid o h
    exact ⟨g, p', h, hs.full⟩
  · intro b g p' h
    exact (sudokuCreate_newGrid o h).1
  · intro hgen
    unfold sudokuGen at hgen
    cases hc : sudokuCreate o fuel 0 (newGrid GRID_SIZE) with
    | none => rw [hc] at hgen; simp at hgen
    | some r3 =>
      obtain ⟨b, g1, pos1⟩ := r3
      have := (sudokuCreate_newGrid o hc).1
      subst this
      rw [hc] at hgen
      simp only at hgen
      cases hr : removeCells o fuel pos1 g1 level with
      | none => rw [hr] at hgen; simp at hgen
      | some r4 => rw [hr] at hgen; simp at hgen
  · intro p h
    obtain ⟨pos1, _, hc, _⟩ := sudokuGen_inv o h
    exact (sudokuCreate_newGrid o hc).2.full

/-- Witness of C8: with fuel 82 the search from the all-zero grid returns
`true` under `sampleOracle`. -/
theorem sudokuCreate_newGrid_true_witness :
    ∃ g p', sudokuCreate sampleOracle 82 0 (newGrid GRID_SIZE) = some (true, g, p') ∧ Full g :=
  (sudokuCreate_newGrid_true sampleOracle 82 0 40).1 (by decide)

/-- C9: on a 9x9 grid and a position inside it, `isSafe` is true exactly
when the value is not 0 and occurs in no cell of the row, no cell of the
column and no cell of the 3x3 box of the position; the box origin
`row - row % 3`, `col - col % 3` is a multiple of 3 and the nine cells
indexed from it lie inside the grid. -/
theorem isSafe_spec (g : Grid) (hg : Is9x9 g) (row col : Nat) (hr : row < 9) (hc : col < 9)
    (v : Nat) :
    (isSafe g row col v = true ↔
      v ≠ 0 ∧ (∀ c, c < 9 → cellAt g row c ≠ v) ∧ (∀ r, r < 9 → cellAt g r col ≠ v) ∧
        (∀ r, r < 9 → ∀ c, c < 9 → r / 3 = row / 3 → c / 3 = col / 3 → cellAt g r c ≠ v)) ∧
    (row - row % 3) % 3 = 0 ∧ (col - col % 3) % 3 = 0 ∧
    (∀ dr, dr < BOX_SIZE → ∀ dc, dc < BOX_SIZE →
      row - row % 3 + dr < GRID_SIZE ∧ col - col % 3 + dc < GRID_SIZE ∧
      (row - row % 3 + dr) / 3 = row / 3 ∧ (col - col % 3 + dc) / 3 = col / 3) := by
  refine ⟨isSafe_iff hg hr hc v, by omega, by omega, ?_⟩
  intro dr hdr dc hdc
  unfold BOX_SIZE at hdr hdc
  unfold GRID_SIZE
  omega

/-- Witness of C9: the position (4, 7) of `samplePuzzle.question` and the
value 3. -/
theorem isSafe_spec_witness :
    Is9x9 samplePuzzle.question ∧
    (isSafe samplePuzzle.question 4 7 3 = true ↔
      3 ≠ 0 ∧ (∀ c, c < 9 → cellAt samplePuzzle.question 4 c ≠ 3) ∧
        (∀ r, r < 9 → cellAt samplePuzzle.question r 7 ≠ 3) ∧
        (∀ r, r < 9 → ∀ c, c < 9 → r / 3 = 4 / 3 → c / 3 = 7 / 3 →
          cellAt samplePuzzle.question r c ≠ 3)) :=
  ⟨by decide, (isSafe_spec samplePuzzle.question (by decide) 4 7 (by decide) (by decide) 3).1⟩

/-- C10: on a 9x9 grid with values `0 .. 9` and no duplicate in a row, column
or box, whatever the shuffles, `sudokuCreate` returns (given fuel above the
number of zero cells); it returns `true` exactly when some solved grid agrees
with the input on its nonzero cells, the grid it then leaves is such a solved
grid, and when it returns `false` every digit 1..9 at the first unassigned
cell was either unsafe or placed and followed by a recursive call that
returned `false`. -/
theorem sudokuCreate_complete (g : Grid) (hg : Is9x9 g) (hd : Digits g)
    (hdup : ¬ HasDuplicate g) (o : Oracle) (fuel pos : Nat) (hf : zeroCount g < fuel) :
    ∃ b g' p', sudokuCreate o fuel pos g = some (b, g', p') ∧
      (b = true ↔ ∃ H, Solved H ∧ Extends H g) ∧
      (b = true → Solved g' ∧ Extends g' g) ∧
      (b = false → ∃ r c, findUnassignedPos g = some (r, c) ∧
        ∀ num, 1 ≤ num → num ≤ 9 → isSafe g r c num = false ∨
          ∃ p1 p2, sudokuCreate o (fuel - 1) p1 (setCell g r c num) =
            some (false, setCell g r c num, p2)) := by
  obtain ⟨⟨b, g', p'⟩, h⟩ := sudokuCreate_returns o fuel pos g hg hf
  obtain ⟨q1, _, q3, q4⟩ := sudokuCreate_post o fuel pos g b g' p' hg h
  obtain ⟨s1, s2⟩ := q4 hd hdup
  have htrue : b = true → Solved g' ∧ Extends g' g := fun hb =>
    ⟨solved_of_valid q1 (q3 hb).1 (s1 hb).1 (s1 hb).2, (q3 hb).2⟩
  refine ⟨b, g', p', h, ⟨fun hb => ⟨g', htrue hb⟩, ?_⟩, htrue, ?_⟩
  · rintro ⟨H, hH, he⟩
    cases b with
    | true => rfl
    | false => exact absurd he (s2 rfl H hH)
  · intro hb
    subst hb
    obtain ⟨k, rfl⟩ : ∃ k, fuel = k + 1 := ⟨fuel - 1, by omega⟩
    exact sudokuCreate_false_exhausted o hg h

/-- Witness of C10: the grid `samplePuzzle.question` with fuel 100. -/
theorem sudokuCreate_complete_witness :
    Is9x9 samplePuzzle.question ∧ Digits samplePuzzle.question ∧
    ∃ b g' p', sudokuCreate sampleOracle 100 0 samplePuzzle.question = some (b, g', p') ∧
      (b = true ↔ ∃ H, Solved H ∧ Extends H samplePuzzle.question) ∧
      (b = true → Solved g' ∧ Extends g' samplePuzzle.question) :=
  ⟨by decide, by decide,
    (sudokuCreate_complete samplePuzzle.question (by decide) (by decide)
      ((sudokuCheck_true_iff (by decide)).1 (by decide)) sampleOracle 100 0
      (lt_of_le_of_lt (zeroCount_le _) (by decide))).imp
      (fun _ hb => hb.imp (fun _ hg => hg.imp (fun _ h => ⟨h.1, h.2.1, h.2.2.1⟩)))⟩

/-- C11: on a 9x9 grid, whatever the shuffles, `sudokuCreate` returns as soon
as the fuel exceeds the number of zero cells, so the recursion is never
deeper than that number, which is at most 81; a call only depends on
recursive calls made on the grid with one safe digit placed at the first
unassigned cell, and that grid has exactly one zero cell fewer. -/
theorem sudokuCreate_terminates (g : Grid) (hg : Is9x9 g) (o : Oracle) (pos : Nat) :
    (∀ fuel, zeroCount g < fuel → ∃ res, sudokuCreate o fuel pos g = some res) ∧
    (∃ res, sudokuCreate o (zeroCount g + 1) pos g = some res) ∧
    zeroCount g ≤ 81 ∧
    (∀ r c num, findUnassignedPos g = some (r, c) → isSafe g r c num = true →
      zeroCount (setCell g r c num) + 1 = zeroCount g) ∧
    (∀ fuel r c, findUnassignedPos g = some (r, c) →
      ∀ call' : Nat → Grid → Option (Bool × Grid × Nat),
        (∀ p num, isSafe g r c num = true →
          call' p (setCell g r c num) = sudokuCreate o fuel p (setCell g r c num)) →
        tryNumbers call' r c (shuffleArray o pos NUMBERS).1 (shuffleArray o pos NUMBERS).2 g =
          sudokuCreate o (fuel + 1) pos g) := by
  refine ⟨fun fuel hf => sudokuCreate_returns o fuel pos g hg hf,
    sudokuCreate_returns o _ pos g hg (Nat.lt_succ_self _), zeroCount_le g, ?_, ?_⟩
  · intro r c num hf hs
    obtain ⟨hr, hc, hz⟩ := findUnassignedPos_some hf
    exact zeroCount_setCell_fill hg hr hc hz ((isSafe_iff_sameUnit hg hr hc num).1 hs).1
  · intro fuel r c hf call' hagree
    obtain ⟨hr, hc, hz⟩ := findUnassignedPos_some hf
    have : sudokuCreate o (fuel + 1) pos g =
        tryNumbers (sudokuCreate o fuel) r c (shuffleArray o pos NUMBERS).1
          (shuffleArray o pos NUMBERS).2 g := by
      rw [sudokuCreate, hf]
    rw [this]
    exact tryNumbers_congr (sudokuCreate o fuel) call'
      (fun pos g1 b g' p' h1 h2 => sudokuCreate_post o fuel pos g1 b g' p' h1 h2)
      hr hc hg hz hagree _ _

/-- Witness of C11: the grid `nearMiss`, with two zero cells, under
`sampleOracle`. -/
theorem sudokuCreate_terminates_witness :
    Is9x9 nearMiss ∧
    ∃ res, sudokuCreate sampleOracle (zeroCount nearMiss + 1) 0 nearMiss = some res :=
  ⟨by decide, (sudokuCreate_terminates nearMiss (by decide) sampleOracle 0).2.1⟩

/-- C12: on a 9x9 grid, whatever the shuffles, when `sudokuCreate` returns
`false` the grid it leaves is cell for cell the grid it received. -/
theorem sudokuCreate_false_restores (g : Grid) (hg : Is9x9 g) (o : Oracle) (fuel pos : Nat)
    (g' : Grid) (p' : Nat) (h : sudokuCreate o fuel pos g = some (false, g', p')) :
    g' = g ∧ ∀ r c, cellAt g' r c = cellAt g r c := by
  have := (sudokuCreate_post o fuel pos g false g' p' hg h).2.1 rfl
  subst this
  exact ⟨rfl, fun _ _ => rfl⟩

/-- Witness of C12: on `nearMiss` the search places 4 at (8, 7), fails at
(8, 8), resets (8, 7) and returns `false`. -/
theorem sudokuCreate_false_restores_witness :
    Is9x9 nearMiss ∧ sudokuCreate sampleOracle 2 0 nearMiss = some (false, nearMiss, 16) ∧
    ∀ r c, cellAt nearMiss r c = cellAt nearMiss r c :=
  ⟨by decide, nearMissRun,
    (sudokuCreate_false_restores nearMiss (by decide) sampleOracle 2 0 nearMiss 16
      nearMissRun).2⟩

/-- C13, as stated, fails: on the completely filled grid `clashFull`, with
values in `1 .. 9` and the value 1 twice in row 0, `sudokuCreate` returns
`true` and leaves the grid as it is, which is not a solved grid. -/
theorem sudokuCreate_clashFull_true :
    Is9x9 clashFull ∧ Digits clashFull ∧
    sudokuCreate sampleOracle 1 0 clashFull = some (true, clashFull, 0) ∧
    ¬ Solved clashFull := by
  refine ⟨by decide, by decide, by decide, ?_⟩
  intro hs
  exact hs.no_duplicate
    ⟨0, 0, 0, 1, by decide, by decide, by decide, by decide, Or.inr (by decide), Or.inl rfl,
      by decide, by decide⟩

/-- C13, amended: on a 9x9 grid with values `0 .. 9` in which no two distinct
cells of a row, column or box share a nonzero value, whatever the shuffles,
whenever `sudokuCreate` returns `true` the grid it leaves has no zero cell
and every row, column and 3x3 box contains each digit 1..9 exactly once. -/
theorem sudokuCreate_true_solved (g : Grid) (hg : Is9x9 g) (hd : Digits g)
    (hdup : ¬ HasDuplicate g) (o : Oracle) (fuel pos : Nat) (g' : Grid) (p' : Nat)
    (h : sudokuCreate o fuel pos g = some (true, g', p')) : Full g' ∧ Solved g' := by
  obtain ⟨q1, _, q3, q4⟩ := sudokuCreate_post o fuel pos g true g' p' hg h
  obtain ⟨s1, _⟩ := q4 hd hdup
  exact ⟨(q3 rfl).1, solved_of_valid q1 (q3 rfl).1 (s1 rfl).1 (s1 rfl).2⟩

/-- Witness of C13, amended: the search from `samplePuzzle.question` under
`sampleOracle`. -/
theorem sudokuCreate_true_solved_witness :
    Is9x9 samplePuzzle.question ∧ Digits samplePuzzle.question ∧
    sudokuCreate sampleOracle 100 0 samplePuzzle.question = some (true, solvedExample, 320) ∧
    Full solvedExample ∧ Solved solvedExample :=
  ⟨by decide, by decide, questionRun,
    sudokuCreate_true_solved samplePuzzle.question (by decide) (by decide)
      ((sudokuCheck_true_iff (by decide)).1 (by decide)) sampleOracle 100 0 solvedExample 320
      questionRun⟩

/-- C14: if `sudokuCheck` returns `true` on a 9x9 grid `G`, it returns `true`
on every 9x9 grid `H` each of whose cells is 0 or the cell of `G`; and it
returns `true` on the `question` of every puzzle `sudokuGen` returns, which
has a zero cell as soon as the difficulty is positive. -/
theorem sudokuCheck_cleared (G H : Grid) (hG : Is9x9 G) (hH : Is9x9 H)
    (hsub : ∀ r, r < 9 → ∀ c, c < 9 → cellAt H r c = 0 ∨ cellAt H r c = cellAt G r c)
    (h : (sudokuCheck G).1 = true) :
    (sudokuCheck H).1 = true ∧
    (∀ (o : Oracle) (fuel : Nat) (level : Int) (p : Puzzle),
      sudokuGen o fuel level = some (some p) →
        (sudokuCheck p.question).1 = true ∧ (0 < level → 0 < zeroCount p.question)) := by
  have key : ∀ A B : Grid,
      (∀ r, r < 9 → ∀ c, c < 9 → cellAt B r c = 0 ∨ cellAt B r c = cellAt A r c) →
      ¬ HasDuplicate A → ¬ HasDuplicate B := by
    intro A B hAB hA
    rintro ⟨r, c, r', c', hr, hc, hr', hc', hne, hu, hnz, heq⟩
    apply hA
    have e1 : cellAt B r c = cellAt A r c := (hAB r hr c hc).resolve_left hnz
    have e2 : cellAt B r' c' = cellAt A r' c' :=
      (hAB r' hr' c' hc').resolve_left (by rw [← heq]; exact hnz)
    exact ⟨r, c, r', c', hr, hc, hr', hc', hne, hu, by rw [← e1]; exact hnz,
      by rw [← e1, ← e2]; exact heq⟩
  refine ⟨(sudokuCheck_true_iff hH).2 (key G H hsub ((sudokuCheck_true_iff hG).1 h)), ?_⟩
  intro o fuel level p hgen
  obtain ⟨pos, pos', hc, hr⟩ := sudokuGen_inv o hgen
  have hs := (sudokuCreate_newGrid o hc).2
  obtain ⟨q1, q2, q3⟩ := removeCells_post o hs.1 hr
  refine ⟨(sudokuCheck_true_iff q1).2 (key p.original p.question (fun r _ c _ => q2 r c)
    hs.no_duplicate), ?_⟩
  intro hpos
  omega

/-- Witness of C14: `solvedExample` and `samplePuzzle.question`, its first 40
cells cleared. -/
theorem sudokuCheck_cleared_witness :
    Is9x9 solvedExample ∧ Is9x9 samplePuzzle.question ∧
    (sudokuCheck solvedExample).1 = true ∧ (sudokuCheck samplePuzzle.question).1 = true :=
  ⟨by decide, by decide, by decide,
    (sudokuCheck_cleared solvedExample samplePuzzle.question (by decide) (by decide)
      (by decide) (by decide)).1⟩

/-- C15: whatever the draws, `shuffleArray` returns an array of the same
length that is a permutation of its argument (each value occurs as often as
before); hence the candidate list of `sudokuCreate` has length 9 and contains
each digit 1..9 exactly once. -/
theorem shuffleArray_spec (o : Oracle) (pos : Nat) (arr : List Nat) :
    (shuffleArray o pos arr).1.length = arr.length ∧
    (shuffleArray o pos arr).1.Perm arr ∧
    (∀ x, (shuffleArray o pos arr).1.count x = arr.count x) ∧
    (shuffleArray o pos NUMBERS).1.length = 9 ∧
    (∀ d, 1 ≤ d → d ≤ 9 → (shuffleArray o pos NUMBERS).1.count d = 1) ∧
    (∀ d, d ∈ (shuffleArray o pos NUMBERS).1 → 1 ≤ d ∧ d ≤ 9) := by
  have hp := shuffleArray_perm o pos arr
  have hn := shuffleArray_perm o pos NUMBERS
  refine ⟨hp.length_eq, hp, fun x => hp.count_eq x, hn.length_eq, ?_, ?_⟩
  · intro d h1 h9
    rw [hn.count_eq]
    unfold NUMBERS
    interval_cases d <;> decide
  · intro d hd
    exact (mem_shuffled_NUMBERS o pos d).1 hd

/-- C16: on a 9x9 grid, when `sudokuCheck` returns `true` the grid is
unchanged; when it returns `false` the grid differs from the input in
exactly one cell, the first cell in row-major order whose nonzero value also
occurs elsewhere in its row, column or box: that cell is set to 0 and every
other cell is unchanged. -/
theorem sudokuCheck_frame (g : Grid) (hg : Is9x9 g) :
    ((sudokuCheck g).1 = true → (sudokuCheck g).2 = g) ∧
    ((sudokuCheck g).1 = false →
      ∃ r c, r < 9 ∧ c < 9 ∧ Conflicting g r c ∧
        (∀ a b, a < 9 → b < 9 → Before a b r c → ¬ Conflicting g a b) ∧
        (sudokuCheck g).2 = setCell g r c 0 ∧
        cellAt g r c ≠ 0 ∧ cellAt (sudokuCheck g).2 r c = 0 ∧
        (∀ a b, (a ≠ r ∨ b ≠ c) → cellAt (sudokuCheck g).2 a b = cellAt g a b)) := by
  constructor
  · exact checkCells_true_grid hg scanOrder (fun p hp => mem_scanOrder.1 hp)
  · intro hf
    obtain ⟨pre, p, post, e1, e2, e3, e4⟩ :=
      checkCells_false hg scanOrder (fun p hp => mem_scanOrder.1 hp) hf
    obtain ⟨r, c⟩ := p
    have hrc : r < 9 ∧ c < 9 :=
      mem_scanOrder.1 (by rw [e1]; exact List.mem_append_right _ (List.mem_cons_self _ _))
    refine ⟨r, c, hrc.1, hrc.2, e3, ?_, e4, e3.1, ?_, ?_⟩
    · intro a b ha hb hbef
      exact e2 (a, b) (mem_pre_of_before e1 ha hb hbef)
    · unfold sudokuCheck
      rw [e4]
      exact cellAt_setCell_same hg hrc.1 hrc.2 0
    · intro a b hne
      unfold sudokuCheck
      rw [e4]
      simp only
      rw [cellAt_setCell hg hrc.1 hrc.2]
      have : ¬ (a = r ∧ b = c) := by
        rintro ⟨rfl, rfl⟩; rcases hne with e | e <;> exact e rfl
      rw [if_neg this]

/-- Witness of C16: on `rowClash` the check returns `false` and clears the
first conflicting cell. -/
theorem sudokuCheck_frame_witness :
    Is9x9 rowClash ∧ (sudokuCheck rowClash).1 = false ∧
    ∃ r c, r < 9 ∧ c < 9 ∧ Conflicting rowClash r c ∧
      (∀ a b, a < 9 → b < 9 → Before a b r c → ¬ Conflicting rowClash a b) ∧
      (sudokuCheck rowClash).2 = setCell rowClash r c 0 ∧
      cellAt rowClash r c ≠ 0 ∧ cellAt (sudokuCheck rowClash).2 r c = 0 ∧
      (∀ a b, (a ≠ r ∨ b ≠ c) → cellAt (sudokuCheck rowClash).2 a b = cellAt rowClash a b) :=
  ⟨by decide, by decide, (sudokuCheck_frame rowClash (by decide)).2 (by decide)⟩

/-- C17: on a 9x9 grid, whatever the shuffles and whether `sudokuCreate`
returns `true` or `false`, every cell that was nonzero on entry holds the
same value in the grid it leaves; the cell it writes first is one that held
0. -/
theorem sudokuCreate_keeps_filled (g : Grid) (hg : Is9x9 g) (o : Oracle) (fuel pos : Nat)
    (b : Bool) (g' : Grid) (p' : Nat) (h : sudokuCreate o fuel pos g = some (b, g', p')) :
    (∀ r c, r < 9 → c < 9 → cellAt g r c ≠ 0 → cellAt g' r c = cellAt g r c) ∧
    (∀ r c, findUnassignedPos g = some (r, c) → cellAt g r c = 0) := by
  obtain ⟨_, q2, q3, _⟩ := sudokuCreate_post o fuel pos g b g' p' hg h
  constructor
  · intro r c hr hc hnz
    cases b with
    | false => rw [q2 rfl]
    | true => exact (q3 rfl).2 r hr c hc hnz
  · intro r c hf
    exact (findUnassignedPos_some hf).2.2

/-- Witness of C17: the search from `samplePuzzle.question` keeps its 41
filled cells. -/
theorem sudokuCreate_keeps_filled_witness :
    Is9x9 samplePuzzle.question ∧
    sudokuCreate sampleOracle 100 0 samplePuzzle.question = some (true, solvedExample, 320) ∧
    ∀ r c, r < 9 → c < 9 → cellAt samplePuzzle.question r c ≠ 0 →
      cellAt solvedExample r c = cellAt samplePuzzle.question r c :=
  ⟨by decide, questionRun,
    (sudokuCreate_keeps_filled samplePuzzle.question (by decide) sampleOracle 100 0 true
      solvedExample 320 questionRun).1⟩

/-- C18: on a 9x9 grid `findUnassignedPos` returns `null` exactly when no
cell equals 0; otherwise it returns a position `(r, c)` of the grid with
`grid[r][c] = 0` such that every cell before it in row-major order is
nonzero. -/
theorem findUnassignedPos_spec (g : Grid) (hg : Is9x9 g) :
    (findUnassignedPos g = none ↔ ∀ r, r < 9 → ∀ c, c < 9 → cellAt g r c ≠ 0) ∧
    (findUnassignedPos g ≠ none →
      ∃ r c, findUnassignedPos g = some (r, c) ∧ r < 9 ∧ c < 9 ∧ cellAt g r c = 0 ∧
        ∀ a b, a < 9 → b < 9 → Before a b r c → cellAt g a b ≠ 0) := by
  have _ := hg
  refine ⟨findUnassignedPos_eq_none_iff g, ?_⟩
  intro hne
  cases hf : findUnassignedPos g with
  | none => exact absurd hf hne
  | some rc =>
    obtain ⟨r, c⟩ := rc
    obtain ⟨hr, hc, hz⟩ := findUnassignedPos_some hf
    exact ⟨r, c, rfl, hr, hc, hz, findUnassignedPos_first hf⟩

/-- Witness of C18: on `nearMiss` the first unassigned cell is (8, 7). -/
theorem findUnassignedPos_spec_witness :
    Is9x9 nearMiss ∧ findUnassignedPos nearMiss = some (8, 7) ∧
    ∃ r c, findUnassignedPos nearMiss = some (r, c) ∧ r < 9 ∧ c < 9 ∧ cellAt nearMiss r c = 0 ∧
      ∀ a b, a < 9 → b < 9 → Before a b r c → cellAt nearMiss a b ≠ 0 :=
  ⟨by decide, by decide, (findUnassignedPos_spec nearMiss (by decide)).2 (by decide)⟩


end Sudoku
